import Mathlib

/-!
Verification development for the sovngarde staff-panel service.

The definitions below are a shallow embedding of the Rust sources:
`src/panelapi/server.rs` (panel query handler: login/session protocol, RPC
method listing, chunked CDN upload and asset management), `api/src/routes.rs`
(REST staff-action endpoints) and `src/staff.rs` (staff recalculation
command).  Persistent tables are embedded as lists of rows, the chunk cache
as an association list, the filesystem as a flat map from paths to byte
contents plus a set of directories.  External effects (OAuth exchange,
TOTP verification, random generation) are passed in as explicit parameters.
SHA-512 is embedded directly from FIPS 180-4 since the handler's integrity
check compares against its hex digest.
-/

namespace Sovngarde

/-! ## Byte and string helpers -/

abbrev Bytes := List Nat

/-- Substring test on character lists: does `hay` contain `needle` as a
contiguous run?  Used to embed Rust's `str::contains(&str)`. -/
def containsSub (needle : List Char) : List Char → Bool
  | [] => needle.isEmpty
  | c :: rest => needle.isPrefixOf (c :: rest) || containsSub needle rest

/-- Rust `haystack.contains(needle)` for string slices. -/
def strContainsSub (hay needle : String) : Bool :=
  containsSub needle.data hay.data

/-- Rust `s.starts_with(pre)`. -/
def strStarts (s pre : String) : Bool :=
  pre.data.isPrefixOf s.data

/-- Rust `s.contains(c)` for a single character. -/
def strHasChar (s : String) (c : Char) : Bool :=
  s.data.contains c

/-- Rust `s.is_empty()`. -/
def strIsEmpty (s : String) : Bool :=
  s.data.isEmpty

/-! ## SHA-512 (FIPS 180-4), as used through the `sha2` crate by `AddFile` -/

def M64 : Nat := 2 ^ 64

def rotr64 (n x : Nat) : Nat := ((x >>> n) ||| (x <<< (64 - n))) % M64

def shr64 (n x : Nat) : Nat := x >>> n

def xor3 (a b c : Nat) : Nat := (a ^^^ b) ^^^ c

def bigSigma0 (x : Nat) : Nat := xor3 (rotr64 28 x) (rotr64 34 x) (rotr64 39 x)

def bigSigma1 (x : Nat) : Nat := xor3 (rotr64 14 x) (rotr64 18 x) (rotr64 41 x)

def smallSigma0 (x : Nat) : Nat := xor3 (rotr64 1 x) (rotr64 8 x) (shr64 7 x)

def smallSigma1 (x : Nat) : Nat := xor3 (rotr64 19 x) (rotr64 61 x) (shr64 6 x)

def ch64 (e f g : Nat) : Nat := (e &&& f) ^^^ ((e ^^^ (M64 - 1)) &&& g)

def maj64 (a b c : Nat) : Nat := xor3 (a &&& b) (a &&& c) (b &&& c)

def sha512K : List Nat :=
  [4794697086780616226, 8158064640168781261, 13096744586834688815,
   16840607885511220156, 4131703408338449720, 6480981068601479193,
   10538285296894168987, 12329834152419229976, 15566598209576043074,
   1334009975649890238, 2608012711638119052, 6128411473006802146,
   8268148722764581231, 9286055187155687089, 11230858885718282805,
   13951009754708518548, 16472876342353939154, 17275323862435702243,
   1135362057144423861, 2597628984639134821, 3308224258029322869,
   5365058923640841347, 6679025012923562964, 8573033837759648693,
   10970295158949994411, 12119686244451234320, 12683024718118986047,
   13788192230050041572, 14330467153632333762, 15395433587784984357,
   489312712824947311, 1452737877330783856, 2861767655752347644,
   3322285676063803686, 5560940570517711597, 5996557281743188959,
   7280758554555802590, 8532644243296465576, 9350256976987008742,
   10552545826968843579, 11727347734174303076, 12113106623233404929,
   14000437183269869457, 14369950271660146224, 15101387698204529176,
   15463397548674623760, 17586052441742319658, 1182934255886127544,
   1847814050463011016, 2177327727835720531, 2830643537854262169,
   3796741975233480872, 4115178125766777443, 5681478168544905931,
   6601373596472566643, 7507060721942968483, 8399075790359081724,
   8693463985226723168, 9568029438360202098, 10144078919501101548,
   10430055236837252648, 11840083180663258601, 13761210420658862357,
   14299343276471374635, 14566680578165727644, 15097957966210449927,
   16922976911328602910, 17689382322260857208, 500013540394364858,
   748580250866718886, 1242879168328830382, 1977374033974150939,
   2944078676154940804, 3659926193048069267, 4368137639120453308,
   4836135668995329356, 5532061633213252278, 6448918945643986474,
   6902733635092675308, 7801388544844847127]

def sha512H0 : List Nat :=
  [7640891576956012808, 13503953896175478587, 4354685564936845355,
   11912009170470909681, 5840696475078001361, 11170449401992604703,
   2270897969802886507, 6620516959819538809]

def natToBytesBE (n width : Nat) : Bytes :=
  (List.range width).map (fun i => (n >>> (8 * (width - 1 - i))) % 256)

def padMessage (msg : Bytes) : Bytes :=
  let k := (128 - ((msg.length + 17) % 128)) % 128
  msg ++ [0x80] ++ List.replicate k 0 ++ natToBytesBE (8 * msg.length) 16

def bytesToWords64 : Bytes → List Nat
  | b0 :: b1 :: b2 :: b3 :: b4 :: b5 :: b6 :: b7 :: rest =>
      ((((((((b0 * 256 + b1) * 256 + b2) * 256 + b3) * 256 + b4) * 256 + b5) * 256
        + b6) * 256 + b7)) :: bytesToWords64 rest
  | _ => []

def toBlocks (ws : List Nat) : List (List Nat) :=
  (List.range (ws.length / 16)).map (fun i => (ws.drop (16 * i)).take 16)

def sha512Extend (ws0 : List Nat) : List Nat :=
  (List.range 64).foldl
    (fun ws i =>
      let t := (smallSigma1 (ws.getD (i + 14) 0) + ws.getD (i + 9) 0
        + smallSigma0 (ws.getD (i + 1) 0) + ws.getD i 0) % M64
      ws ++ [t])
    ws0

structure Sha512State where
  a : Nat
  b : Nat
  c : Nat
  d : Nat
  e : Nat
  f : Nat
  g : Nat
  h : Nat

def sha512Round (st : Sha512State) (k w : Nat) : Sha512State :=
  let t1 := (st.h + bigSigma1 st.e + ch64 st.e st.f st.g + k + w) % M64
  let t2 := (bigSigma0 st.a + maj64 st.a st.b st.c) % M64
  ⟨(t1 + t2) % M64, st.a, st.b, st.c, (st.d + t1) % M64, st.e, st.f, st.g⟩

def sha512Compress (hs : List Nat) (block : List Nat) : List Nat :=
  let ws := sha512Extend block
  let st0 : Sha512State :=
    ⟨hs.getD 0 0, hs.getD 1 0, hs.getD 2 0, hs.getD 3 0,
     hs.getD 4 0, hs.getD 5 0, hs.getD 6 0, hs.getD 7 0⟩
  let fin := (List.zip sha512K ws).foldl (fun st kw => sha512Round st kw.1 kw.2) st0
  [(hs.getD 0 0 + fin.a) % M64, (hs.getD 1 0 + fin.b) % M64,
   (hs.getD 2 0 + fin.c) % M64, (hs.getD 3 0 + fin.d) % M64,
   (hs.getD 4 0 + fin.e) % M64, (hs.getD 5 0 + fin.f) % M64,
   (hs.getD 6 0 + fin.g) % M64, (hs.getD 7 0 + fin.h) % M64]

def sha512Words (msg : Bytes) : List Nat :=
  (toBlocks (bytesToWords64 (padMessage msg))).foldl sha512Compress sha512H0

def hexDigit (n : Nat) : Char := "0123456789abcdef".data.getD n '0'

def word64ToHex (w : Nat) : List Char :=
  (List.range 16).map (fun i => hexDigit ((w >>> (4 * (15 - i))) % 16))

/-- Lowercase hex encoding of the SHA-512 digest of a byte string, matching
`data_encoding::HEXLOWER.encode(&Sha512::digest(..))` in the handler. -/
def sha512hex (msg : Bytes) : String :=
  ⟨((sha512Words msg).map word64ToHex).flatten⟩

set_option maxRecDepth 100000

/-- Sanity: FIPS 180-4 test vector for the empty message. -/
theorem sha512hex_empty :
    sha512hex [] =
      "cf83e1357eefb8bdf1542850d66d8007d620e4050b5715dc83f4a921d36ce9ce47d0d13c5d85f2b0ff8318d2877eec2f63b931bd47417a81a538327af927da3e" := by
  rfl

/-- Sanity: FIPS 180-4 test vector for the message "abc". -/
theorem sha512hex_abc :
    sha512hex [97, 98, 99] =
      "ddaf35a193617abacc417349ae20413112e6fa4e89a97ea20a9eeee64b55d39a2192992a274fc1a836ba3c23a3feebbd454d4423643ce80e2a9ac94fa54ca49f" := by
  rfl

/-! ## CDN model: path validation, filesystem, chunk cache
(`PanelQuery::UpdateCdnAsset` / `PanelQuery::UploadCdnFileChunk` in
`src/panelapi/server.rs`) -/

inductive FsMeta
  | file
  | dir
deriving DecidableEq

/-- Flat filesystem: file paths mapped to byte contents, plus the set of
directory paths.  A lookup takes the first matching entry. -/
structure CdnFs where
  files : List (String × Bytes)
  dirs : List String
deriving DecidableEq

def CdnFs.lookupFile (fs : CdnFs) (p : String) : Option Bytes :=
  (fs.files.find? (fun e => e.1 == p)).map (fun e => e.2)

/-- Rust `std::fs::metadata`: `some .file` / `some .dir` on success, `none`
for the `NotFound` error kind. -/
def CdnFs.metadata (fs : CdnFs) (p : String) : Option FsMeta :=
  if (fs.lookupFile p).isSome then some .file
  else if fs.dirs.contains p then some .dir
  else none

/-- Create-or-truncate a file at `p` with content `content`. -/
def CdnFs.setFile (fs : CdnFs) (p : String) (content : Bytes) : CdnFs :=
  { fs with files := (p, content) :: fs.files.filter (fun e => e.1 != p) }

def CdnFs.removeFile (fs : CdnFs) (p : String) : CdnFs :=
  { fs with files := fs.files.filter (fun e => e.1 != p) }

/-- `DirBuilder::new().recursive(true).create(p)` (parents abstracted away). -/
def CdnFs.addDir (fs : CdnFs) (p : String) : CdnFs :=
  { fs with dirs := p :: fs.dirs }

/-- The chunk cache `cdn_file_chunks_cache` (moka, TTL 3600s; expiry is not
modelled — entries persist until explicitly removed). -/
abbrev ChunkCache := List (String × Bytes)

def cacheLookup (cache : ChunkCache) (k : String) : Option Bytes :=
  (cache.find? (fun e => e.1 == k)).map (fun e => e.2)

def cacheContains (cache : ChunkCache) (k : String) : Bool :=
  (cacheLookup cache k).isSome

def cacheInsert (cache : ChunkCache) (k : String) (v : Bytes) : ChunkCache :=
  (k, v) :: cache.filter (fun e => e.1 != k)

/-- moka `Cache::remove`: returns the removed value (if any) and the cache
without the key. -/
def cacheRemove (cache : ChunkCache) (k : String) : Option Bytes × ChunkCache :=
  (cacheLookup cache k, cache.filter (fun e => e.1 != k))

/-- Filesystem side effects, in order of execution, so the theorems can state
that an operation performed no filesystem access at all. -/
inductive FsEvent
  | stat (p : String)
  | readDir (p : String)
  | readFile (p : String)
  | createDir (p : String)
  | createFile (p : String)
  | writeFile (p : String)
  | copy (src dst : String)
  | rename (src dst : String)
  | renameTree (src dst : String)
  | copyTree (src dst : String)
  | removeFile (p : String)
  | removeDir (p : String)
deriving DecidableEq

/-- HTTP-level outcome of a panel query (status class plus body/message). -/
inductive Resp
  | ok (body : String)
  | okJson (body : String)
  | stream (path : String)
  | noContent
  | badRequest (msg : String)
  | forbidden (msg : String)
  | internalErr (msg : String)
deriving DecidableEq

/-- `CdnAssetAction` variants as matched by the `UpdateCdnAsset` handler. -/
inductive CdnAssetAction
  | listPath
  | readFile
  | createFolder
  | addFile (overwrite : Bool) (chunks : List String) (sha512 : String)
  | copyFile (overwrite delete_original : Bool) (copy_to : String)
  | delete
deriving DecidableEq

def nameAllowedChars : String :=
  "abcdefghijklmnopqrstuvwxyzABCDEFGHIJKLMNOPQRSTUVWXYZ0123456789-_.:%$[]()\x7b\x7d$@! "

def pathAllowedChars : String :=
  "abcdefghijklmnopqrstuvwxyzABCDEFGHIJKLMNOPQRSTUVWXYZ0123456789-_.:%$/ "

def validateNameErr : String :=
  "Asset name cannot contain disallowed characters, slashes or backslashes or start with a dot"

def validatePathErr : String :=
  "Asset path cannot contain non-ASCII characters, dot-dots, doubleslashes, backslashes or start with a slash"

/-- `validate_name` from the `UpdateCdnAsset` handler. -/
def validate_name (name : String) : Except String Unit :=
  if name.data.any (fun c => !(nameAllowedChars.data.contains c))
      || strHasChar name '/'
      || strHasChar name '\\'
      || strStarts name "."
  then .error validateNameErr
  else .ok ()

/-- `validate_path` from the `UpdateCdnAsset` handler, also applied to the
`copy_to` argument of `CdnAssetAction::CopyFile`. -/
def validate_path (path : String) : Except String Unit :=
  if path.data.any (fun c => !(pathAllowedChars.data.contains c))
      || strContainsSub path ".."
      || strContainsSub path "//"
      || strHasChar path '\\'
      || strStarts path "/"
  then .error validatePathErr
  else .ok ()

structure CdnState where
  cache : ChunkCache
  fs : CdnFs
deriving DecidableEq

structure CdnOutcome where
  resp : Resp
  st : CdnState
  events : List FsEvent
deriving DecidableEq

def scopeLookup (scopes : List (String × String)) (scope : String) : Option String :=
  (scopes.find? (fun e => e.1 == scope)).map (fun e => e.2)

/-- Temp file used by `AddFile`:
`/tmp/arcadia-cdn-file{rand}@{asset_final_path with / replaced by >}`.
`tmpToken` stands for the `gen_random(32)` output. -/
def tmpFilePath (tmpToken finalPath : String) : String :=
  "/tmp/arcadia-cdn-file" ++ tmpToken ++ "@"
    ++ ⟨finalPath.data.map (fun c => if c = '/' then '>' else c)⟩

/-! ### The six `CdnAssetAction` handlers.  The OS error text appended to
"Fetching asset metadata failed" messages and directory-listing payloads are
abstracted to fixed strings; control flow, state changes and event order
follow the source. -/

def runListPath (st : CdnState) (assetPath : String) : CdnOutcome :=
  match st.fs.metadata assetPath with
  | some .dir => ⟨.okJson assetPath, st, [.stat assetPath, .readDir assetPath]⟩
  | some .file =>
      ⟨.badRequest "Asset path already exists and is not a directory", st, [.stat assetPath]⟩
  | none => ⟨.badRequest "Fetching asset metadata failed", st, [.stat assetPath]⟩

def runReadFile (st : CdnState) (finalPath : String) : CdnOutcome :=
  match st.fs.metadata finalPath with
  | some .file => ⟨.stream finalPath, st, [.stat finalPath, .readFile finalPath]⟩
  | some .dir => ⟨.badRequest "Asset path is not a file", st, [.stat finalPath]⟩
  | none => ⟨.badRequest "Fetching asset metadata failed", st, [.stat finalPath]⟩

def runCreateFolder (st : CdnState) (finalPath : String) : CdnOutcome :=
  match st.fs.metadata finalPath with
  | some _ => ⟨.badRequest "Asset path already exists", st, [.stat finalPath]⟩
  | none =>
      ⟨.noContent, { st with fs := st.fs.addDir finalPath },
        [.stat finalPath, .createDir finalPath]⟩

/-- The chunk-assembly loop of `AddFile`: each chunk id is removed from the
cache as it is consumed and its bytes are appended to the temp file. -/
def assembleChunks (tmp : String) :
    List String → CdnState → Bytes → List FsEvent →
      Except String Bytes × CdnState × List FsEvent
  | [], st, acc, evs => (.ok acc, st, evs)
  | c :: rest, st, acc, evs =>
      match cacheRemove st.cache c with
      | (none, cache') =>
          (.error ("Chunk " ++ c ++ " does not exist"), { st with cache := cache' }, evs)
      | (some b, cache') =>
          let acc' := acc ++ b
          assembleChunks tmp rest ⟨cache', st.fs.setFile tmp acc'⟩ acc'
            (evs ++ [.writeFile tmp])

/-- `AddFile` after both metadata pre-checks: create the temp file, assemble
the chunks, hash, and publish only on digest match. -/
def runAddFileAssemble (st : CdnState) (finalPath tmpToken : String)
    (chunks : List String) (sha512 : String) (evs : List FsEvent) : CdnOutcome :=
  let tmp := tmpFilePath tmpToken finalPath
  let st1 : CdnState := ⟨st.cache, st.fs.setFile tmp []⟩
  match assembleChunks tmp chunks st1 [] (evs ++ [.createFile tmp]) with
  | (.error e, st2, evs2) => ⟨.internalErr e, st2, evs2⟩
  | (.ok content, st2, evs2) =>
      let evs3 := evs2 ++ [.readFile tmp]
      if sha512 != sha512hex content then
        ⟨.badRequest "SHA512 hash does not match", st2, evs3⟩
      else
        ⟨.noContent, ⟨st2.cache, (st2.fs.setFile finalPath content).removeFile tmp⟩,
          evs3 ++ [.copy tmp finalPath, .removeFile tmp]⟩

/-- `AddFile` after the destination pre-check: ensure the parent path exists
and is a directory (creating it when absent). -/
def runAddFileParent (st : CdnState) (assetPath finalPath tmpToken : String)
    (chunks : List String) (sha512 : String) (evs : List FsEvent) : CdnOutcome :=
  match st.fs.metadata assetPath with
  | some .dir =>
      runAddFileAssemble st finalPath tmpToken chunks sha512 (evs ++ [.stat assetPath])
  | some .file =>
      ⟨.badRequest "Asset path already exists and is not a directory", st,
        evs ++ [.stat assetPath]⟩
  | none =>
      runAddFileAssemble ⟨st.cache, st.fs.addDir assetPath⟩ finalPath tmpToken chunks
        sha512 (evs ++ [.stat assetPath, .createDir assetPath])

def runAddFile (st : CdnState) (assetPath finalPath tmpToken : String)
    (overwrite : Bool) (chunks : List String) (sha512 : String) : CdnOutcome :=
  if chunks.isEmpty then ⟨.badRequest "No chunks were provided", st, []⟩
  else if chunks.length > 100000 then ⟨.badRequest "Too many chunks were provided", st, []⟩
  else if chunks.any (fun c => !(cacheContains st.cache c)) then
    ⟨.badRequest "Chunk does not exist", st, []⟩
  else
    match st.fs.metadata finalPath with
    | some m =>
        if overwrite then
          if m = .dir then
            ⟨.badRequest "Asset to be replaced is a directory", st, [.stat finalPath]⟩
          else
            runAddFileParent st assetPath finalPath tmpToken chunks sha512 [.stat finalPath]
        else ⟨.badRequest "Asset already exists", st, [.stat finalPath]⟩
    | none => runAddFileParent st assetPath finalPath tmpToken chunks sha512 [.stat finalPath]

/-- Recursive-copy of a directory tree in the flat filesystem: every file
strictly below `src` is mirrored below `dst`. -/
def copyTreeFs (fs : CdnFs) (src dst : String) : CdnFs :=
  let moved := fs.files.filterMap (fun e =>
    if (src ++ "/").isPrefixOf e.1 then some (dst ++ e.1.drop src.length, e.2) else none)
  { files := moved ++ fs.files, dirs := dst :: fs.dirs }

def removeTreeFs (fs : CdnFs) (src : String) : CdnFs :=
  { files := fs.files.filter (fun e => !((src ++ "/").isPrefixOf e.1)),
    dirs := fs.dirs.filter (fun d => d != src && !((src ++ "/").isPrefixOf d)) }

def runCopyFileResolved (st : CdnState) (finalPath copyTo : String)
    (delete_original : Bool) (evs : List FsEvent) : CdnOutcome :=
  match st.fs.metadata finalPath with
  | some .file =>
      let content := (st.fs.lookupFile finalPath).getD []
      if delete_original then
        ⟨.noContent, { st with fs := (st.fs.setFile copyTo content).removeFile finalPath },
          evs ++ [.stat finalPath, .rename finalPath copyTo]⟩
      else
        ⟨.noContent, { st with fs := st.fs.setFile copyTo content },
          evs ++ [.stat finalPath, .copy finalPath copyTo]⟩
  | some .dir =>
      if delete_original then
        ⟨.noContent, { st with fs := removeTreeFs (copyTreeFs st.fs finalPath copyTo) finalPath },
          evs ++ [.stat finalPath, .renameTree finalPath copyTo, .removeDir finalPath]⟩
      else
        ⟨.noContent, { st with fs := copyTreeFs st.fs finalPath copyTo },
          evs ++ [.stat finalPath, .copyTree finalPath copyTo]⟩
  | none => ⟨.badRequest "Could not find asset", st, evs ++ [.stat finalPath]⟩

def runCopyFile (st : CdnState) (cdnRoot finalPath : String)
    (overwrite delete_original : Bool) (copy_to : String) : CdnOutcome :=
  match validate_path copy_to with
  | .error e => ⟨.internalErr e, st, []⟩
  | .ok _ =>
      if strIsEmpty copy_to then ⟨.badRequest "copy_to location cannot be empty", st, []⟩
      else
        let copyTo := cdnRoot ++ "/" ++ copy_to
        match st.fs.metadata copyTo with
        | some m =>
            if m ≠ .dir && !overwrite then
              ⟨.badRequest "copy_to location already exists", st, [.stat copyTo]⟩
            else runCopyFileResolved st finalPath copyTo delete_original [.stat copyTo]
        | none => runCopyFileResolved st finalPath copyTo delete_original [.stat copyTo]

def runDelete (st : CdnState) (finalPath : String) : CdnOutcome :=
  match st.fs.metadata finalPath with
  | some .file =>
      ⟨.noContent, { st with fs := st.fs.removeFile finalPath },
        [.stat finalPath, .removeFile finalPath]⟩
  | some .dir =>
      ⟨.noContent, { st with fs := removeTreeFs st.fs finalPath },
        [.stat finalPath, .removeDir finalPath]⟩
  | none => ⟨.badRequest "Could not find asset", st, [.stat finalPath]⟩

/-- The `PanelQuery::UpdateCdnAsset` handler.  `hasCdnCap` stands for
`get_capabilities(..).contains(&Capability::CdnManagement)`; validation
errors surface through `Error::new`, i.e. as internal-server-error responses
carrying the validation message. -/
def updateCdnAsset (hasCdnCap : Bool) (scopes : List (String × String))
    (cdnScope name path : String) (action : CdnAssetAction) (tmpToken : String)
    (st : CdnState) : CdnOutcome :=
  if !hasCdnCap then
    ⟨.forbidden "You do not have permission to manage the CDN right now?", st, []⟩
  else
    match scopeLookup scopes cdnScope with
    | none => ⟨.badRequest "Invalid CDN scope", st, []⟩
    | some cdnRoot =>
        match validate_name name with
        | .error e => ⟨.internalErr e, st, []⟩
        | .ok _ =>
            match validate_path path with
            | .error e => ⟨.internalErr e, st, []⟩
            | .ok _ =>
                let assetPath := if strIsEmpty path then cdnRoot else cdnRoot ++ "/" ++ path
                let finalPath :=
                  if strIsEmpty name then assetPath else assetPath ++ "/" ++ name
                match action with
                | .listPath => runListPath st assetPath
                | .readFile => runReadFile st finalPath
                | .createFolder => runCreateFolder st finalPath
                | .addFile overwrite chunks sha512 =>
                    runAddFile st assetPath finalPath tmpToken overwrite chunks sha512
                | .copyFile overwrite delete_original copy_to =>
                    runCopyFile st cdnRoot finalPath overwrite delete_original copy_to
                | .delete => runDelete st finalPath

/-- The `PanelQuery::UploadCdnFileChunk` retry loop.  The chunk id is chosen
before the loop; the loop re-tests the same id, giving up after 10 tries. -/
def uploadChunkLoop (cache : ChunkCache) (chunkId : String) (chunk : Bytes) :
    Nat → Resp × ChunkCache
  | 0 => (.internalErr "Failed to generate a chunk ID", cache)
  | fuel + 1 =>
      if !(cacheContains cache chunkId) then (.ok chunkId, cacheInsert cache chunkId chunk)
      else uploadChunkLoop cache chunkId chunk fuel

/-- The `PanelQuery::UploadCdnFileChunk` handler.  `gen n` is the value the
`n`-th call of `crate::impls::crypto::gen_random(32)` would return; the
handler calls it exactly once (index 0), before the retry loop. -/
def uploadCdnFileChunk (hasCdnCap : Bool) (gen : Nat → String) (cache : ChunkCache)
    (chunk : Bytes) : Resp × ChunkCache :=
  if !hasCdnCap then
    (.forbidden "You do not have permission to manage the CDN right now?", cache)
  else if chunk.length > 100000000 then (.badRequest "Chunk size is too large", cache)
  else if chunk.isEmpty then (.badRequest "Chunk is empty", cache)
  else uploadChunkLoop cache (gen 0) chunk 10

/-! ## Database rows and the login/session protocol
(`PanelQuery::Login` / `LoginActivateSession` in `src/panelapi/server.rs`,
table DDL from `init_panelapi`) -/

/-- A row of the `users` table (the columns the embedded handlers read). -/
structure UserRow where
  user_id : String
  staff : Bool
  owner : Bool
  hadmin : Bool
  iblhdev : Bool
  admin : Bool
  ibldev : Bool
  api_token : String
deriving DecidableEq

/-- A row of `staffpanel__authchain`; `state` defaults to `"pending"` on
insert per the DDL in `init_panelapi`. -/
structure AuthChainRow where
  user_id : String
  paneldata_ref : String
  token : String
  state : String
deriving DecidableEq

/-- A row of `staffpanel__paneldata` (one per user). -/
structure PanelDataRow where
  itag : String
  user_id : String
  mfa_secret : String
  mfa_verified : Bool
deriving DecidableEq

structure Db where
  users : List UserRow
  authchain : List AuthChainRow
  paneldata : List PanelDataRow
deriving DecidableEq

def findUser (db : Db) (uid : String) : Option UserRow :=
  db.users.find? (fun u => u.user_id == uid)

/-- `PanelQuery::GetLoginUrl`: only the protocol version is checked before
the OAuth2 authorization URL is formatted around `redirect_url`. -/
def getLoginUrl (clientId : String) (version : Nat) (redirectUrl : String) : Resp :=
  if version != 2 then .badRequest "Invalid version"
  else
    .ok ("https://discord.com/api/oauth2/authorize?client_id=" ++ clientId
      ++ "&redirect_uri=" ++ redirectUrl ++ "&response_type=code&scope=identify")

/-- The post-OAuth part of `PanelQuery::Login` (from the `SELECT staff`
lookup to the transaction commit).  `uid` is the identity returned by the
provider; `token` is the freshly generated login token, `freshItag` and
`freshSecret` the lazily generated paneldata itag/secret.  The three writes
(delete old sessions, lazy paneldata insert, session insert) happen inside
one transaction in the source; the model performs them in one atomic step. -/
def loginFinish (db : Db) (uid token freshItag freshSecret : String) :
    Except String String × Db :=
  match findUser db uid with
  | none => (.error "no rows returned by a query that expected to return at least one row", db)
  | some u =>
      if !u.staff then (.error "You are not staff", db)
      else
        let chain1 := db.authchain.filter (fun r => r.user_id != uid)
        let pcount := (db.paneldata.filter (fun p => p.user_id == uid)).length
        let itag :=
          if pcount == 0 then freshItag
          else (((db.paneldata.find? (fun p => p.user_id == uid)).map
            (fun p => p.itag)).getD "")
        let pd :=
          if pcount == 0 then db.paneldata ++ [⟨freshItag, uid, freshSecret, false⟩]
          else db.paneldata
        (.ok token,
          { db with authchain := chain1 ++ [⟨uid, itag, token, "pending"⟩], paneldata := pd })

/-- `PanelQuery::Login`: the redirect-URL allow-list check, then the OAuth2
code exchange (abstracted: `oauthUser` is the identity the provider returns,
`none` when the exchange fails), then `loginFinish`. -/
def login (allowlist : List String) (redirectUrl : String) (oauthUser : Option String)
    (db : Db) (token freshItag freshSecret : String) : Except String String × Db :=
  if !(allowlist.contains redirectUrl) then (.error "Invalid redirect url", db)
  else
    match oauthUser with
    | none => (.error "OAuth2 exchange failed", db)
    | some uid => loginFinish db uid token freshItag freshSecret

/-- Modelled from the spec: `check_auth_insecure` lives in
`src/panelapi/auth.rs`, which is not among the provided sources.  Per the
spec it resolves a LoginSession by token with no requirement on its state
(the secure variant additionally requires `active`; the insecure one also
accepts `pending`), failing with `InvalidOrExpiredToken` when no row
matches. -/
def check_auth_insecure (db : Db) (token : String) : Option AuthChainRow :=
  db.authchain.find? (fun r => r.token == token)

/-- Observable steps of `LoginActivateSession` after authentication, so the
theorems can state whether OTP verification and the state writes happened. -/
inductive AuthEvent
  | verifyOtp
  | setSessionActive (token : String)
  | setMfaVerified (uid : String)
deriving DecidableEq

/-- `PanelQuery::LoginActivateSession`.  `verifyTotp otp secret` stands for
`thotp::verify_totp(&otp, &secret, 0).0` (time-dependent, hence a
parameter).  Note the handler has no check that the session is `pending`. -/
def activateSession (db : Db) (token otp : String)
    (verifyTotp : String → String → Bool) : Resp × Db × List AuthEvent :=
  match check_auth_insecure db token with
  | none => (.internalErr "identityExpired", db, [])
  | some auth =>
      let pcount := (db.paneldata.filter (fun p => p.user_id == auth.user_id)).length
      if pcount == 0 then (.badRequest "mfaNotSetup", db, [])
      else
        let secret := (((db.paneldata.find? (fun p => p.user_id == auth.user_id)).map
          (fun p => p.mfa_secret)).getD "")
        if !(verifyTotp otp secret) then (.badRequest "mfaInvalidCode", db, [.verifyOtp])
        else
          let chain := db.authchain.map (fun r =>
            if r.token == token then { r with state := "active" } else r)
          let pd := db.paneldata.map (fun p =>
            if p.user_id == auth.user_id then { p with mfa_verified := true } else p)
          (.noContent, { db with authchain := chain, paneldata := pd },
            [.verifyOtp, .setSessionActive token, .setMfaVerified auth.user_id])

/-! ## RPC method listing (`PanelQuery::GetRpcMethods`) -/

/-- `crate::rpc::core::RPCPerms`, as matched in the filtering loop. -/
inductive RPCPerms
  | owner
  | head
  | admin
  | staff
deriving DecidableEq

/-- The role flags the handler reads:
`(owner, hadmin || iblhdev, admin, staff)`. -/
structure PermFlags where
  owner : Bool
  head : Bool
  admin : Bool
  staff : Bool
deriving DecidableEq

def permFlagsOf (u : UserRow) : PermFlags :=
  ⟨u.owner, u.hadmin || u.iblhdev, u.admin, u.staff⟩

/-- An entry of the RPC method registry (`rpc/core.rs` is not among the
provided sources, so the registry contents are left abstract; only the id
and required tier matter to the filtering loop). -/
structure RpcMethodInfo where
  id : String
  needs_perms : RPCPerms
deriving DecidableEq

/-- The per-variant filter of the `GetRpcMethods` loop: each tier is gated
by its own flag only. -/
def methodAllowed (f : PermFlags) : RPCPerms → Bool
  | .owner => f.owner
  | .head => f.head
  | .admin => f.admin
  | .staff => f.staff

/-- The `GetRpcMethods` listing: with `filtered` set, a method is kept
exactly when `methodAllowed` accepts its tier. -/
def getRpcMethods (filtered : Bool) (f : PermFlags) (methods : List RpcMethodInfo) :
    List RpcMethodInfo :=
  methods.filter (fun m => !filtered || methodAllowed f m.needs_perms)

def tierRank : RPCPerms → Nat
  | .owner => 3
  | .head => 2
  | .admin => 1
  | .staff => 0

/-- The spec-side notion of a caller's derived tier: the greatest tier in
the ordering Owner > Head > Admin > Staff whose flag is set (none when no
flag is set).  This follows the spec's words, for comparison against the
source-side `methodAllowed`. -/
def specDerivedTier (f : PermFlags) : Option RPCPerms :=
  if f.owner then some .owner
  else if f.head then some .head
  else if f.admin then some .admin
  else if f.staff then some .staff
  else none

/-! ## REST staff-action endpoints (`api/src/routes.rs`) -/

/-- Responses of the actix endpoints, compared for observational identity. -/
inductive ApiResp
  | unauthorized
  | okJson (body : String)
  | noContent
  | badRequestJson (reason : String)
deriving DecidableEq

/-- `POST /panel/bots/approve`: header credential against the stored
`api_token` plus the `staff` flag; `actionResult` stands for the outcome of
`libavacado::staff::approve_bot` (external).  A missing Authorization header
reads as `""`. -/
def approve_bot (users : List UserRow) (authHeader : Option String) (staffId : String)
    (actionResult : Except String String) : ApiResp :=
  let auth := authHeader.getD ""
  match users.find? (fun u => u.user_id == staffId) with
  | none => .unauthorized
  | some check =>
      if check.api_token != auth || !check.staff then .unauthorized
      else
        match actionResult with
        | .error e => .badRequestJson e
        | .ok r => .okJson r

/-- `POST /panel/bots/deny`: same gate as approve; no-content on success. -/
def deny_bot (users : List UserRow) (authHeader : Option String) (staffId : String)
    (actionResult : Except String Unit) : ApiResp :=
  let auth := authHeader.getD ""
  match users.find? (fun u => u.user_id == staffId) with
  | none => .unauthorized
  | some check =>
      if check.api_token != auth || !check.staff then .unauthorized
      else
        match actionResult with
        | .error e => .badRequestJson e
        | .ok _ => .noContent

/-- `POST /panel/bots/votes-reset`: requires `hadmin || iblhdev`. -/
def vote_reset_bot (users : List UserRow) (authHeader : Option String) (staffId : String)
    (actionResult : Except String Unit) : ApiResp :=
  let auth := authHeader.getD ""
  match users.find? (fun u => u.user_id == staffId) with
  | none => .unauthorized
  | some check =>
      if check.api_token != auth || !(check.hadmin || check.iblhdev) then .unauthorized
      else
        match actionResult with
        | .error e => .badRequestJson e
        | .ok _ => .noContent

/-- `POST /panel/bots/votes-reset/all`: requires `hadmin || iblhdev`. -/
def vote_reset_all_bot (users : List UserRow) (authHeader : Option String)
    (staffId : String) (actionResult : Except String Unit) : ApiResp :=
  let auth := authHeader.getD ""
  match users.find? (fun u => u.user_id == staffId) with
  | none => .unauthorized
  | some check =>
      if check.api_token != auth || !(check.hadmin || check.iblhdev) then .unauthorized
      else
        match actionResult with
        | .error e => .badRequestJson e
        | .ok _ => .noContent

/-- `POST /panel/bots/unverify`: requires `hadmin || iblhdev`. -/
def unverify_bot (users : List UserRow) (authHeader : Option String) (staffId : String)
    (actionResult : Except String Unit) : ApiResp :=
  let auth := authHeader.getD ""
  match users.find? (fun u => u.user_id == staffId) with
  | none => .unauthorized
  | some check =>
      if check.api_token != auth || !(check.hadmin || check.iblhdev) then .unauthorized
      else
        match actionResult with
        | .error e => .badRequestJson e
        | .ok _ => .noContent

/-! ## Staff recalculation (`staff_recalc` in `src/staff.rs`) -/

structure GuildMember where
  user_id : String
  roles : List Nat
deriving DecidableEq

structure RoleConfig where
  devRole : Nat
  headDevRole : Nat
  staffManRole : Nat
  webModRole : Nat
deriving DecidableEq

/-- The confirmed reset step:
`UPDATE users SET staff = false, ibldev = false, admin = true` (no WHERE
clause — it touches every row). -/
def staffRecalcReset (users : List UserRow) : List UserRow :=
  users.map (fun u => { u with staff := false, ibldev := false, admin := true })

def dbUpdateWhere (users : List UserRow) (uid : String) (f : UserRow → UserRow) :
    List UserRow :=
  users.map (fun u => if u.user_id == uid then f u else u)

/-- The per-member role-based update of `staff_recalc` (first matching role
wins, in the order dev, head-dev, staff-manager, web-mod). -/
def applyMemberRoles (rc : RoleConfig) (users : List UserRow) (m : GuildMember) :
    List UserRow :=
  if m.roles.contains rc.devRole then
    dbUpdateWhere users m.user_id (fun u => { u with staff := true, ibldev := true })
  else if m.roles.contains rc.headDevRole then
    dbUpdateWhere users m.user_id
      (fun u => { u with staff := true, ibldev := true, iblhdev := true })
  else if m.roles.contains rc.staffManRole then
    dbUpdateWhere users m.user_id (fun u => { u with staff := true, admin := true })
  else if m.roles.contains rc.webModRole then
    dbUpdateWhere users m.user_id (fun u => { u with staff := true })
  else users

/-- The confirmed branch of `staff_recalc`: the global reset, then the
role-based updates for each guild member in order. -/
def staff_recalc (rc : RoleConfig) (users : List UserRow) (members : List GuildMember) :
    List UserRow :=
  members.foldl (applyMemberRoles rc) (staffRecalcReset users)

/-! ## Helper lemmas -/

theorem findPair_filter_ne {β : Type} (l : List (String × β)) (k k' : String)
    (h : k' ≠ k) :
    (l.filter (fun e => e.1 != k)).find? (fun e => e.1 == k') =
      l.find? (fun e => e.1 == k') := by
  induction l with
  | nil => rfl
  | cons e rest ih =>
      by_cases hek : e.1 = k
      · have h1 : (e.1 != k) = false := by simp [bne, hek]
        have h2 : (e.1 == k') = false := by
          simp only [beq_eq_false_iff_ne, ne_eq, hek]
          exact fun hk => h hk.symm
        simp [List.filter_cons, h1, List.find?_cons, h2, ih]
      · have h1 : (e.1 != k) = true := by simp [bne, hek]
        by_cases hek' : e.1 = k'
        · have h2 : (e.1 == k') = true := by simp [hek']
          simp only [List.filter_cons, h1, if_true, List.find?_cons, h2]
        · have h2 : (e.1 == k') = false := by simp [hek']
          simp [List.filter_cons, h1, List.find?_cons, h2, ih]

theorem cacheLookup_filter_ne (cache : ChunkCache) (k k' : String) (h : k' ≠ k) :
    cacheLookup (cache.filter (fun e => e.1 != k)) k' = cacheLookup cache k' := by
  unfold cacheLookup
  rw [findPair_filter_ne cache k k' h]

theorem CdnFs.setFile_setFile (fs : CdnFs) (p : String) (a b : Bytes) :
    (fs.setFile p a).setFile p b = fs.setFile p b := by
  unfold CdnFs.setFile
  simp [List.filter_cons, bne_self_eq_false, List.filter_filter]

theorem CdnFs.lookupFile_setFile_self (fs : CdnFs) (p : String) (v : Bytes) :
    (fs.setFile p v).lookupFile p = some v := by
  unfold CdnFs.setFile CdnFs.lookupFile
  simp [List.find?_cons]

theorem CdnFs.lookupFile_setFile_ne (fs : CdnFs) (p q : String) (v : Bytes)
    (h : q ≠ p) :
    (fs.setFile p v).lookupFile q = fs.lookupFile q := by
  unfold CdnFs.setFile CdnFs.lookupFile
  have h2 : (p == q) = false := by
    simp only [beq_eq_false_iff_ne, ne_eq]
    exact fun hk => h hk.symm
  simp only [List.find?_cons, h2]
  rw [findPair_filter_ne fs.files p q h]

theorem CdnFs.lookupFile_removeFile_ne (fs : CdnFs) (p q : String) (h : q ≠ p) :
    (fs.removeFile p).lookupFile q = fs.lookupFile q := by
  unfold CdnFs.removeFile CdnFs.lookupFile
  rw [findPair_filter_ne fs.files p q h]

theorem CdnFs.lookupFile_addDir (fs : CdnFs) (d q : String) :
    (fs.addDir d).lookupFile q = fs.lookupFile q := rfl

theorem validate_name_error_eq (name : String) (e : String)
    (h : validate_name name = .error e) : e = validateNameErr := by
  unfold validate_name at h
  split at h
  · injection h with h
    exact h.symm
  · simp at h

theorem validate_path_error_eq (path : String) (e : String)
    (h : validate_path path = .error e) : e = validatePathErr := by
  unfold validate_path at h
  split at h
  · injection h with h
    exact h.symm
  · simp at h

/-- Any of the five disallowed shapes of `path` makes `validate_path`
reject. -/
theorem validate_path_rejects (path : String)
    (h : path.data.any (fun c => !(pathAllowedChars.data.contains c)) = true ∨
      strContainsSub path ".." = true ∨ strContainsSub path "//" = true ∨
      strHasChar path '\\' = true ∨ strStarts path "/" = true) :
    validate_path path = .error validatePathErr := by
  have hC : (path.data.any (fun c => !(pathAllowedChars.data.contains c))
      || strContainsSub path ".." || strContainsSub path "//"
      || strHasChar path '\\' || strStarts path "/") = true := by
    rcases h with h | h | h | h | h <;>
      simp only [h, Bool.true_or, Bool.or_true]
  unfold validate_path
  simp only [hC, if_true]

/-! ## Claim theorems -/

/-- C1: for every UpdateCdnAsset request whose `path` contains "..", a double
slash, a backslash, a character outside the allow-listed set, or starts with
"/", the request fails with a validation error, the chunk cache and
filesystem are unchanged and no filesystem read, write, create, copy or
delete event is performed; the same holds for the `copy_to` path of a
CopyFile action (with the outer `name`/`path` valid so that the CopyFile
branch is reached). -/
theorem C1_invalid_path_rejected_before_fs :
    (∀ (scopes : List (String × String)) (cdnScope name path root tmpToken : String)
        (action : CdnAssetAction) (st : CdnState),
      scopeLookup scopes cdnScope = some root →
      (path.data.any (fun c => !(pathAllowedChars.data.contains c)) = true ∨
        strContainsSub path ".." = true ∨ strContainsSub path "//" = true ∨
        strHasChar path '\\' = true ∨ strStarts path "/" = true) →
      (updateCdnAsset true scopes cdnScope name path action tmpToken st).events = [] ∧
      (updateCdnAsset true scopes cdnScope name path action tmpToken st).st = st ∧
      ((updateCdnAsset true scopes cdnScope name path action tmpToken st).resp =
          Resp.internalErr validateNameErr ∨
        (updateCdnAsset true scopes cdnScope name path action tmpToken st).resp =
          Resp.internalErr validatePathErr)) ∧
    (∀ (scopes : List (String × String))
        (cdnScope name path root tmpToken copyTo : String)
        (ow del : Bool) (st : CdnState),
      scopeLookup scopes cdnScope = some root →
      validate_name name = .ok () →
      validate_path path = .ok () →
      (copyTo.data.any (fun c => !(pathAllowedChars.data.contains c)) = true ∨
        strContainsSub copyTo ".." = true ∨ strContainsSub copyTo "//" = true ∨
        strHasChar copyTo '\\' = true ∨ strStarts copyTo "/" = true) →
      (updateCdnAsset true scopes cdnScope name path (.copyFile ow del copyTo)
          tmpToken st).events = [] ∧
      (updateCdnAsset true scopes cdnScope name path (.copyFile ow del copyTo)
          tmpToken st).st = st ∧
      (updateCdnAsset true scopes cdnScope name path (.copyFile ow del copyTo)
          tmpToken st).resp = Resp.internalErr validatePathErr) := by
  constructor
  · intro scopes cdnScope name path root tmpToken action st hscope hbad
    have hvp := validate_path_rejects path hbad
    cases hvn : validate_name name with
    | error e =>
        have he := validate_name_error_eq name e hvn
        subst he
        simp only [updateCdnAsset, Bool.not_true, if_false, hscope, hvn]
        exact ⟨rfl, rfl, Or.inl rfl⟩
    | ok u =>
        cases u
        simp only [updateCdnAsset, Bool.not_true, if_false, hscope, hvn, hvp]
        exact ⟨rfl, rfl, Or.inr rfl⟩
  · intro scopes cdnScope name path root tmpToken copyTo ow del st hscope hvn hvp hbad
    have hvc := validate_path_rejects copyTo hbad
    simp only [updateCdnAsset, Bool.not_true, if_false, hscope, hvn, hvp,
      runCopyFile, hvc]
    exact ⟨rfl, rfl, rfl⟩

/-- C1 witness: concrete runs of both halves — a traversal `path` and a
traversal `copy_to` are rejected with no filesystem event. -/
theorem C1_witness :
    scopeLookup [("ibl@main", "/cdn")] "ibl@main" = some "/cdn" ∧
    strContainsSub "../x" ".." = true ∧
    (updateCdnAsset true [("ibl@main", "/cdn")] "ibl@main" "n" "../x"
        CdnAssetAction.delete "T" ⟨[], ⟨[], []⟩⟩).events = [] ∧
    (updateCdnAsset true [("ibl@main", "/cdn")] "ibl@main" "n" "../x"
        CdnAssetAction.delete "T" ⟨[], ⟨[], []⟩⟩).st = ⟨[], ⟨[], []⟩⟩ ∧
    ((updateCdnAsset true [("ibl@main", "/cdn")] "ibl@main" "n" "../x"
        CdnAssetAction.delete "T" ⟨[], ⟨[], []⟩⟩).resp =
        Resp.internalErr validateNameErr ∨
      (updateCdnAsset true [("ibl@main", "/cdn")] "ibl@main" "n" "../x"
        CdnAssetAction.delete "T" ⟨[], ⟨[], []⟩⟩).resp =
        Resp.internalErr validatePathErr) ∧
    (updateCdnAsset true [("ibl@main", "/cdn")] "ibl@main" "n" "p"
        (CdnAssetAction.copyFile false false "/../etc") "T" ⟨[], ⟨[], []⟩⟩).events = [] ∧
    (updateCdnAsset true [("ibl@main", "/cdn")] "ibl@main" "n" "p"
        (CdnAssetAction.copyFile false false "/../etc") "T" ⟨[], ⟨[], []⟩⟩).resp =
      Resp.internalErr validatePathErr := by
  have h1 := C1_invalid_path_rejected_before_fs.1 [("ibl@main", "/cdn")] "ibl@main"
    "n" "../x" "/cdn" "T" CdnAssetAction.delete ⟨[], ⟨[], []⟩⟩ rfl
    (Or.inr (Or.inl (by decide)))
  have h2 := C1_invalid_path_rejected_before_fs.2 [("ibl@main", "/cdn")] "ibl@main"
    "n" "p" "/cdn" "T" "/../etc" false false ⟨[], ⟨[], []⟩⟩ rfl (by rfl) (by rfl)
    (Or.inr (Or.inl (by decide)))
  exact ⟨rfl, by decide, h1.1, h1.2.1, h1.2.2, h2.1, h2.2.2⟩

/-- C5 counterexample: a redirect URL outside the allow-list is not
rejected by GetLoginUrl — the handler returns the authorization URL
embedding it (the only check is the protocol version). -/
theorem C5_counterexample :
    List.contains ["https://panel.example"] "https://evil.example" = false ∧
    getLoginUrl "cid" 2 "https://evil.example" =
      Resp.ok "https://discord.com/api/oauth2/authorize?client_id=cid&redirect_uri=https://evil.example&response_type=code&scope=identify" ∧
    strContainsSub
      "https://discord.com/api/oauth2/authorize?client_id=cid&redirect_uri=https://evil.example&response_type=code&scope=identify"
      "https://evil.example" = true := by
  exact ⟨by decide, rfl, by decide⟩

/-- C5 (amended): GetLoginUrl performs no allow-list validation — for any
redirectUrl it returns the OAuth2 authorization URL embedding it; the
invalid-redirect rejection happens in Login instead, which fails with
"Invalid redirect url" and leaves the database unchanged whenever the
redirectUrl is not in the configured allow-list. -/
theorem C5_redirect_allowlist_checked_in_login :
    (∀ (clientId redirectUrl : String),
      getLoginUrl clientId 2 redirectUrl =
        Resp.ok ("https://discord.com/api/oauth2/authorize?client_id=" ++ clientId
          ++ "&redirect_uri=" ++ redirectUrl ++ "&response_type=code&scope=identify")) ∧
    (∀ (allowlist : List String) (redirectUrl : String) (oauthUser : Option String)
        (db : Db) (token freshItag freshSecret : String),
      allowlist.contains redirectUrl = false →
      login allowlist redirectUrl oauthUser db token freshItag freshSecret =
        (Except.error "Invalid redirect url", db)) := by
  constructor
  · intro clientId redirectUrl
    rfl
  · intro allowlist redirectUrl oauthUser db token freshItag freshSecret h
    unfold login
    simp only [h, Bool.not_false, if_true]

/-- C5 witness: a non-allow-listed redirect makes Login fail with the
invalid-redirect error and an unchanged database. -/
theorem C5_witness :
    List.contains ["https://panel.example"] "https://evil.example" = false ∧
    login ["https://panel.example"] "https://evil.example" (some "u1")
        ⟨[], [], []⟩ "tok" "itag" "sec" =
      (Except.error "Invalid redirect url", ⟨[], [], []⟩) := by
  exact ⟨by decide,
    C5_redirect_allowlist_checked_in_login.2 ["https://panel.example"]
      "https://evil.example" (some "u1") ⟨[], [], []⟩ "tok" "itag" "sec" (by decide)⟩

/-- C6 counterexample: a caller with only the owner flag set is shown no
Staff-tier method under filtering, although their derived tier (Owner)
reaches the Staff tier — filtering is per-flag, not tier-ordered. -/
theorem C6_counterexample :
    getRpcMethods true ⟨true, false, false, false⟩ [⟨"m", RPCPerms.staff⟩] = [] ∧
    specDerivedTier ⟨true, false, false, false⟩ = some RPCPerms.owner ∧
    tierRank RPCPerms.staff ≤ tierRank RPCPerms.owner := by
  decide

/-- C6 (amended): GetRpcMethods with filtered=true returns a method exactly
when the caller has the one flag matching the method's tier (owner flag for
Owner, hadmin-or-iblhdev for Head, admin for Admin, staff for Staff) — a
higher tier does not imply access to lower tiers' methods; still, no
returned method's tier ever exceeds the caller's derived tier. -/
theorem C6_filtering_is_per_flag :
    ∀ (f : PermFlags) (methods : List RpcMethodInfo) (m : RpcMethodInfo),
      (m ∈ getRpcMethods true f methods ↔
        m ∈ methods ∧ methodAllowed f m.needs_perms = true) ∧
      (m ∈ getRpcMethods true f methods →
        ∃ t, specDerivedTier f = some t ∧ tierRank m.needs_perms ≤ tierRank t) := by
  intro f methods m
  have hmem : m ∈ getRpcMethods true f methods ↔
      m ∈ methods ∧ methodAllowed f m.needs_perms = true := by
    unfold getRpcMethods
    rw [List.mem_filter]
    simp
  refine ⟨hmem, fun hm => ?_⟩
  have hall : methodAllowed f m.needs_perms = true := (hmem.1 hm).2
  rcases f with ⟨o, h, a, s⟩
  cases o <;> cases h <;> cases a <;> cases s <;> cases hp : m.needs_perms <;>
    rw [hp] at hall <;>
    simp only [methodAllowed] at hall <;>
    first
      | exact absurd hall (by decide)
      | exact ⟨_, rfl, by decide⟩

/-- C6 witness: a staff-flag-only caller is shown a Staff-tier method, and
its tier does not exceed the caller's derived tier. -/
theorem C6_witness :
    (⟨"m", RPCPerms.staff⟩ : RpcMethodInfo) ∈
      getRpcMethods true ⟨false, false, false, true⟩ [⟨"m", RPCPerms.staff⟩] ∧
    ∃ t, specDerivedTier ⟨false, false, false, true⟩ = some t ∧
      tierRank RPCPerms.staff ≤ tierRank t := by
  have h := (C6_filtering_is_per_flag ⟨false, false, false, true⟩
    [⟨"m", RPCPerms.staff⟩] ⟨"m", RPCPerms.staff⟩).2 (by decide)
  exact ⟨by decide, h⟩

/-- A generator for which the first id collides with a live cache key but
the next id would be fresh. -/
def c7gen : Nat → String := fun n => if n == 0 then "A" else "B"

/-- C7: the handler does NOT generate a new chunk id on collision — the id
is generated once, before the loop, and the same id is re-tested ten times,
so the operation fails with the chunk-id-exhausted error even though a
fresh id (`gen 1`) was available and never tried.  Evaluated at the failing
input: cache holding key "A", generator returning "A" then "B". -/
theorem C7_chunk_id_not_regenerated :
    uploadCdnFileChunk true c7gen [("A", [1])] [2] =
      (Resp.internalErr "Failed to generate a chunk ID", [("A", [1])]) ∧
    cacheContains [("A", [1])] (c7gen 0) = true ∧
    cacheContains [("A", [1])] (c7gen 1) = false := by
  decide

/-- The half of the C7 claim that does hold: the loop returns an id only
when that id was absent from the cache at insertion time. -/
theorem uploadChunkLoop_ok_only_if_absent :
    ∀ (cache : ChunkCache) (chunkId : String) (chunk : Bytes) (fuel : Nat)
      (cache' : ChunkCache),
      uploadChunkLoop cache chunkId chunk fuel = (Resp.ok chunkId, cache') →
      cacheContains cache chunkId = false := by
  intro cache chunkId chunk fuel
  induction fuel with
  | zero =>
      intro cache' h
      exact absurd h (by simp [uploadChunkLoop])
  | succ n ih =>
      intro cache' h
      unfold uploadChunkLoop at h
      by_cases hc : cacheContains cache chunkId
      · rw [hc] at h
        exact ih cache' h
      · simp at hc
        exact hc

/-- C9: the confirmed reset step of the staff recalculation command updates
every row of the users table to staff=false, ibldev=false, admin=true
(admin is set for all users, staff or not), and the per-member role-based
updates are applied only afterwards, on top of the reset state. -/
theorem C9_recalc_reset_flags :
    ∀ (users : List UserRow) (rc : RoleConfig) (members : List GuildMember),
      (∀ u ∈ staffRecalcReset users, u.staff = false ∧ u.ibldev = false ∧ u.admin = true) ∧
      staff_recalc rc users members =
        members.foldl (applyMemberRoles rc) (staffRecalcReset users) := by
  intro users rc members
  refine ⟨fun u hu => ?_, rfl⟩
  unfold staffRecalcReset at hu
  rcases List.mem_map.1 hu with ⟨v, _, rfl⟩
  exact ⟨rfl, rfl, rfl⟩

/-- A non-admin staff member before recalculation. -/
def c9row : UserRow := ⟨"u1", true, false, false, false, false, true, "tok"⟩

/-- C9 witness: the reset row of a concrete user has staff=false,
ibldev=false and admin=true. -/
theorem C9_witness :
    (⟨"u1", false, false, false, false, true, false, "tok"⟩ : UserRow) ∈
      staffRecalcReset [c9row] ∧
    ((⟨"u1", false, false, false, false, true, false, "tok"⟩ : UserRow).staff = false ∧
      (⟨"u1", false, false, false, false, true, false, "tok"⟩ : UserRow).ibldev = false ∧
      (⟨"u1", false, false, false, false, true, false, "tok"⟩ : UserRow).admin = true) := by
  refine ⟨by decide, ?_⟩
  exact (C9_recalc_reset_flags [c9row] ⟨1, 2, 3, 4⟩ []).1 _ (by decide)

/-- C3: when Login succeeds (staff identity, fresh token), exactly one
session row exists afterwards for that user — in state "pending" and
carrying the returned token — every session row that existed for that user
before the call is gone, rows of other users are untouched, and the lazy
MfaRecord is created when absent.  The deletion, lazy creation and
insertion are performed by the single atomic step `loginFinish`, mirroring
the single transaction in the source. -/
theorem C3_login_single_pending_session :
    ∀ (db : Db) (uid token freshItag freshSecret : String) (u : UserRow),
      findUser db uid = some u →
      u.staff = true →
      (∀ r ∈ db.authchain, r.token ≠ token) →
      (loginFinish db uid token freshItag freshSecret).1 = .ok token ∧
      (∃ itag,
        ((loginFinish db uid token freshItag freshSecret).2.authchain.filter
          (fun r => r.user_id == uid)) = [⟨uid, itag, token, "pending"⟩]) ∧
      (∀ r ∈ db.authchain, r.user_id = uid →
        r ∉ (loginFinish db uid token freshItag freshSecret).2.authchain) ∧
      ((loginFinish db uid token freshItag freshSecret).2.authchain.filter
          (fun r => r.user_id != uid)) =
        db.authchain.filter (fun r => r.user_id != uid) ∧
      ((db.paneldata.filter (fun p => p.user_id == uid)).length = 0 →
        (loginFinish db uid token freshItag freshSecret).2.paneldata =
          db.paneldata ++ [⟨freshItag, uid, freshSecret, false⟩]) := by
  intro db uid token freshItag freshSecret u hfind hstaff hfresh
  simp only [loginFinish, hfind, hstaff, Bool.not_true, Bool.false_eq_true, if_false]
  refine ⟨trivial, ?_, ?_, ?_, ?_⟩
  · refine ⟨if (db.paneldata.filter (fun p => p.user_id == uid)).length == 0 then
      freshItag else
      (((db.paneldata.find? (fun p => p.user_id == uid)).map (fun p => p.itag)).getD ""),
      ?_⟩
    rw [List.filter_append, List.filter_filter]
    have h1 : (db.authchain.filter (fun r => r.user_id == uid && r.user_id != uid)) = [] := by
      apply List.filter_eq_nil_iff.2
      intro r _
      simp [bne]
    have h2 : (([(⟨uid,
        if (db.paneldata.filter (fun p => p.user_id == uid)).length == 0 then freshItag
        else (((db.paneldata.find? (fun p => p.user_id == uid)).map
          (fun p => p.itag)).getD ""),
        token, "pending"⟩ : AuthChainRow)]).filter (fun r => r.user_id == uid)) =
        [⟨uid,
          if (db.paneldata.filter (fun p => p.user_id == uid)).length == 0 then freshItag
          else (((db.paneldata.find? (fun p => p.user_id == uid)).map
            (fun p => p.itag)).getD ""),
          token, "pending"⟩] := by
      simp [List.filter_cons]
    rw [h1, h2, List.nil_append]
  · intro r hr hruid hmem
    rcases List.mem_append.1 hmem with hmem | hmem
    · have := (List.mem_filter.1 hmem).2
      simp [bne, hruid] at this
    · have heq := List.mem_singleton.1 hmem
      exact hfresh r hr (by rw [heq])
  · rw [List.filter_append, List.filter_filter]
    have h1 : (fun (r : AuthChainRow) => r.user_id != uid && r.user_id != uid) =
        fun r => r.user_id != uid := by
      funext r
      rw [Bool.and_self]
    have h2 : (([(⟨uid,
        if (db.paneldata.filter (fun p => p.user_id == uid)).length == 0 then freshItag
        else (((db.paneldata.find? (fun p => p.user_id == uid)).map
          (fun p => p.itag)).getD ""),
        token, "pending"⟩ : AuthChainRow)]).filter (fun r => r.user_id != uid)) = [] := by
      simp [List.filter_cons, bne]
    rw [h1, h2, List.append_nil]
  · intro hcount
    simp only [hcount]
    rfl

/-- An existing session in pending state alongside an empty paneldata set,
for the C3 witness. -/
def c3db : Db :=
  { users := [⟨"u1", true, false, false, false, false, false, "api"⟩],
    authchain := [⟨"u1", "i0", "oldtok", "active"⟩],
    paneldata := [] }

/-- C3 witness: a concrete successful login wipes the old session and
leaves exactly one pending session with the new token, creating the
MfaRecord lazily. -/
theorem C3_witness :
    findUser c3db "u1" = some ⟨"u1", true, false, false, false, false, false, "api"⟩ ∧
    (loginFinish c3db "u1" "newtok" "i1" "sec").1 = .ok "newtok" ∧
    (∃ itag,
      ((loginFinish c3db "u1" "newtok" "i1" "sec").2.authchain.filter
        (fun r => r.user_id == "u1")) = [⟨"u1", itag, "newtok", "pending"⟩]) ∧
    (loginFinish c3db "u1" "newtok" "i1" "sec").2.paneldata =
      [⟨"i1", "u1", "sec", false⟩] := by
  have h := C3_login_single_pending_session c3db "u1" "newtok" "i1" "sec"
    ⟨"u1", true, false, false, false, false, false, "api"⟩ rfl rfl
    (by
      intro r hr
      have : r = ⟨"u1", "i0", "oldtok", "active"⟩ := List.mem_singleton.1 hr
      rw [this]
      decide)
  exact ⟨rfl, h.1, h.2.1, h.2.2.2.2 rfl⟩

/-- A database whose only session is already active, with a verified MFA
record, for the C4 counterexample. -/
def c4db : Db :=
  { users := [],
    authchain := [⟨"u1", "i1", "tok", "active"⟩],
    paneldata := [⟨"i1", "u1", "SECRET", true⟩] }

/-- C4 counterexample: with the session already in state "active",
ActivateSession is not rejected — the OTP is verified and the state update
performed, and the request succeeds with no content. -/
theorem C4_counterexample :
    (check_auth_insecure c4db "tok").map (fun r => r.state) = some "active" ∧
    (activateSession c4db "tok" "123456"
      (fun otp s => otp == "123456" && s == "SECRET")).1 = Resp.noContent ∧
    AuthEvent.verifyOtp ∈
      (activateSession c4db "tok" "123456"
        (fun otp s => otp == "123456" && s == "SECRET")).2.2 ∧
    AuthEvent.setSessionActive "tok" ∈
      (activateSession c4db "tok" "123456"
        (fun otp s => otp == "123456" && s == "SECRET")).2.2 := by
  decide

/-- C4 (amended): ActivateSession requires only that the token resolves to
a session (any state) and that an MfaRecord exists; the pending-state
precondition is not enforced: for a session in any prior state — including
one already active — the OTP is verified and, on success, the session state
is (re)set to "active" and the MfaRecord marked verified. -/
theorem C4_activate_session_ignores_state :
    ∀ (db : Db) (token otp : String) (verify : String → String → Bool)
      (row : AuthChainRow) (pd : PanelDataRow),
      check_auth_insecure db token = some row →
      db.paneldata.find? (fun p => p.user_id == row.user_id) = some pd →
      verify otp pd.mfa_secret = true →
      activateSession db token otp verify =
        (Resp.noContent,
         { db with
            authchain := db.authchain.map (fun r =>
              if r.token == token then { r with state := "active" } else r),
            paneldata := db.paneldata.map (fun p =>
              if p.user_id == row.user_id then { p with mfa_verified := true } else p) },
         [AuthEvent.verifyOtp, AuthEvent.setSessionActive token,
          AuthEvent.setMfaVerified row.user_id]) := by
  intro db token otp verify row pd hca hfind hver
  have hmem := List.mem_of_find?_eq_some hfind
  have hpd : (pd.user_id == row.user_id) = true := by
    have h := List.find?_some hfind
    simpa using h
  have hne : (db.paneldata.filter (fun p => p.user_id == row.user_id)).length ≠ 0 := by
    have hin : pd ∈ db.paneldata.filter (fun p => p.user_id == row.user_id) :=
      List.mem_filter.2 ⟨hmem, hpd⟩
    exact Nat.pos_iff_ne_zero.mp (List.length_pos.2 (List.ne_nil_of_mem hin))
  have hcount : ((db.paneldata.filter (fun p => p.user_id == row.user_id)).length == 0)
      = false := by
    simpa using hne
  simp only [activateSession, hca, hcount, hfind, Option.map_some',
    Option.getD_some, hver, Bool.not_true, Bool.false_eq_true, if_false]

/-- A concrete stand-in for the TOTP verifier, accepting one fixed code
against one fixed secret. -/
def verify0 : String → String → Bool := fun otp s => otp == "123456" && s == "SECRET"

/-- C4 witness: a concrete already-active session is activated again — the
theorem's hypotheses hold at this input and the full outcome is the
successful one. -/
theorem C4_witness :
    check_auth_insecure c4db "tok" = some ⟨"u1", "i1", "tok", "active"⟩ ∧
    verify0 "123456" "SECRET" = true ∧
    activateSession c4db "tok" "123456" verify0 =
      (Resp.noContent,
       { users := [],
         authchain := [⟨"u1", "i1", "tok", "active"⟩],
         paneldata := [⟨"i1", "u1", "SECRET", true⟩] },
       [AuthEvent.verifyOtp, AuthEvent.setSessionActive "tok",
        AuthEvent.setMfaVerified "u1"]) := by
  have h := C4_activate_session_ignores_state c4db "tok" "123456" verify0
    ⟨"u1", "i1", "tok", "active"⟩ ⟨"i1", "u1", "SECRET", true⟩ rfl rfl (by decide)
  refine ⟨rfl, by decide, ?_⟩
  rw [h]
  decide

/-- C8: every staff-action REST endpoint answers anything other than the
unauthorized response only when the Authorization header equals the stored
per-user `api_token` of the supplied staff id and the endpoint's required
role flags hold (`staff` for approve/deny, `hadmin || iblhdev` for the vote
resets and unverify); and the rejection when the user row does not exist is
the very same response as the rejection when the row exists but the token
or flags are wrong — the two runs are indistinguishable to the caller. -/
theorem C8_endpoint_auth_indistinguishable :
    (∀ (users : List UserRow) (h : Option String) (sid : String)
        (act : Except String String),
      approve_bot users h sid act ≠ ApiResp.unauthorized →
      ∃ u, users.find? (fun x => x.user_id == sid) = some u ∧
        u.api_token = h.getD "" ∧ u.staff = true) ∧
    (∀ (users : List UserRow) (h : Option String) (sid : String)
        (act : Except String Unit),
      deny_bot users h sid act ≠ ApiResp.unauthorized →
      ∃ u, users.find? (fun x => x.user_id == sid) = some u ∧
        u.api_token = h.getD "" ∧ u.staff = true) ∧
    (∀ (users : List UserRow) (h : Option String) (sid : String)
        (act : Except String Unit),
      vote_reset_bot users h sid act ≠ ApiResp.unauthorized →
      ∃ u, users.find? (fun x => x.user_id == sid) = some u ∧
        u.api_token = h.getD "" ∧ (u.hadmin || u.iblhdev) = true) ∧
    (∀ (users : List UserRow) (h : Option String) (sid : String)
        (act : Except String Unit),
      vote_reset_all_bot users h sid act ≠ ApiResp.unauthorized →
      ∃ u, users.find? (fun x => x.user_id == sid) = some u ∧
        u.api_token = h.getD "" ∧ (u.hadmin || u.iblhdev) = true) ∧
    (∀ (users : List UserRow) (h : Option String) (sid : String)
        (act : Except String Unit),
      unverify_bot users h sid act ≠ ApiResp.unauthorized →
      ∃ u, users.find? (fun x => x.user_id == sid) = some u ∧
        u.api_token = h.getD "" ∧ (u.hadmin || u.iblhdev) = true) ∧
    (∀ (users1 users2 : List UserRow) (h : Option String) (sid : String)
        (act1 : Except String String) (act2 : Except String Unit),
      users1.find? (fun x => x.user_id == sid) = none →
      (∀ u, users2.find? (fun x => x.user_id == sid) = some u →
        u.api_token ≠ h.getD "" ∨ u.staff = false) →
      approve_bot users1 h sid act1 = approve_bot users2 h sid act1 ∧
      deny_bot users1 h sid act2 = deny_bot users2 h sid act2) ∧
    (∀ (users1 users2 : List UserRow) (h : Option String) (sid : String)
        (act3 act4 act5 : Except String Unit),
      users1.find? (fun x => x.user_id == sid) = none →
      (∀ u, users2.find? (fun x => x.user_id == sid) = some u →
        u.api_token ≠ h.getD "" ∨ (u.hadmin || u.iblhdev) = false) →
      vote_reset_bot users1 h sid act3 = vote_reset_bot users2 h sid act3 ∧
      vote_reset_all_bot users1 h sid act4 = vote_reset_all_bot users2 h sid act4 ∧
      unverify_bot users1 h sid act5 = unverify_bot users2 h sid act5) := by
  have gateStaff : ∀ (u : UserRow) (auth : String),
      u.api_token ≠ auth ∨ u.staff = false →
      (u.api_token != auth || !u.staff) = true := by
    intro u auth hu
    rcases hu with hu | hu
    · simp [bne, hu]
    · simp [hu]
  have gateHead : ∀ (u : UserRow) (auth : String),
      u.api_token ≠ auth ∨ (u.hadmin || u.iblhdev) = false →
      (u.api_token != auth || !(u.hadmin || u.iblhdev)) = true := by
    intro u auth hu
    rcases hu with hu | hu
    · simp [bne, hu]
    · simp [hu]
  have sound : ∀ (flag : UserRow → Bool) (users : List UserRow) (h : Option String)
      (sid : String) (u : UserRow),
      users.find? (fun x => x.user_id == sid) = some u →
      ¬((u.api_token != h.getD "" || !(flag u)) = true) →
      u.api_token = h.getD "" ∧ flag u = true := by
    intro flag users h sid u _ hg
    rw [Bool.or_eq_true] at hg
    push_neg at hg
    obtain ⟨h1, h2⟩ := hg
    exact ⟨by simpa using h1, by simpa using h2⟩
  refine ⟨?_, ?_, ?_, ?_, ?_, ?_, ?_⟩
  · intro users h sid act hne
    simp only [approve_bot] at hne
    split at hne
    · exact absurd rfl hne
    · rename_i u hu
      split at hne
      · exact absurd rfl hne
      · rename_i hg
        obtain ⟨h1, h2⟩ := sound (fun v => v.staff) users h sid u hu hg
        exact ⟨u, hu, h1, h2⟩
  · intro users h sid act hne
    simp only [deny_bot] at hne
    split at hne
    · exact absurd rfl hne
    · rename_i u hu
      split at hne
      · exact absurd rfl hne
      · rename_i hg
        obtain ⟨h1, h2⟩ := sound (fun v => v.staff) users h sid u hu hg
        exact ⟨u, hu, h1, h2⟩
  · intro users h sid act hne
    simp only [vote_reset_bot] at hne
    split at hne
    · exact absurd rfl hne
    · rename_i u hu
      split at hne
      · exact absurd rfl hne
      · rename_i hg
        obtain ⟨h1, h2⟩ := sound (fun v => v.hadmin || v.iblhdev) users h sid u hu hg
        exact ⟨u, hu, h1, h2⟩
  · intro users h sid act hne
    simp only [vote_reset_all_bot] at hne
    split at hne
    · exact absurd rfl hne
    · rename_i u hu
      split at hne
      · exact absurd rfl hne
      · rename_i hg
        obtain ⟨h1, h2⟩ := sound (fun v => v.hadmin || v.iblhdev) users h sid u hu hg
        exact ⟨u, hu, h1, h2⟩
  · intro users h sid act hne
    simp only [unverify_bot] at hne
    split at hne
    · exact absurd rfl hne
    · rename_i u hu
      split at hne
      · exact absurd rfl hne
      · rename_i hg
        obtain ⟨h1, h2⟩ := sound (fun v => v.hadmin || v.iblhdev) users h sid u hu hg
        exact ⟨u, hu, h1, h2⟩
  · intro users1 users2 h sid act1 act2 h1 h2
    have l1a : approve_bot users1 h sid act1 = ApiResp.unauthorized := by
      simp only [approve_bot, h1]
    have l1d : deny_bot users1 h sid act2 = ApiResp.unauthorized := by
      simp only [deny_bot, h1]
    have l2a : approve_bot users2 h sid act1 = ApiResp.unauthorized := by
      simp only [approve_bot]
      split
      · rfl
      · rename_i u hu
        rw [if_pos (gateStaff u (h.getD "") (h2 u hu))]
    have l2d : deny_bot users2 h sid act2 = ApiResp.unauthorized := by
      simp only [deny_bot]
      split
      · rfl
      · rename_i u hu
        rw [if_pos (gateStaff u (h.getD "") (h2 u hu))]
    exact ⟨by rw [l1a, l2a], by rw [l1d, l2d]⟩
  · intro users1 users2 h sid act3 act4 act5 h1 h2
    have l1v : vote_reset_bot users1 h sid act3 = ApiResp.unauthorized := by
      simp only [vote_reset_bot, h1]
    have l1w : vote_reset_all_bot users1 h sid act4 = ApiResp.unauthorized := by
      simp only [vote_reset_all_bot, h1]
    have l1u : unverify_bot users1 h sid act5 = ApiResp.unauthorized := by
      simp only [unverify_bot, h1]
    have l2v : vote_reset_bot users2 h sid act3 = ApiResp.unauthorized := by
      simp only [vote_reset_bot]
      split
      · rfl
      · rename_i u hu
        rw [if_pos (gateHead u (h.getD "") (h2 u hu))]
    have l2w : vote_reset_all_bot users2 h sid act4 = ApiResp.unauthorized := by
      simp only [vote_reset_all_bot]
      split
      · rfl
      · rename_i u hu
        rw [if_pos (gateHead u (h.getD "") (h2 u hu))]
    have l2u : unverify_bot users2 h sid act5 = ApiResp.unauthorized := by
      simp only [unverify_bot]
      split
      · rfl
      · rename_i u hu
        rw [if_pos (gateHead u (h.getD "") (h2 u hu))]
    exact ⟨by rw [l1v, l2v], by rw [l1w, l2w], by rw [l1u, l2u]⟩

/-- C8 witness: a concrete run — for the approve endpoint, the response
when no user row exists equals the response when the row exists but the
header does not match its stored token (both the bare unauthorized
response). -/
theorem C8_witness :
    (([] : List UserRow).find? (fun x => x.user_id == "u1") = none) ∧
    approve_bot [] (some "wrong") "u1" (Except.ok "r") =
      approve_bot [⟨"u1", true, false, false, false, false, false, "secret"⟩]
        (some "wrong") "u1" (Except.ok "r") ∧
    approve_bot [] (some "wrong") "u1" (Except.ok "r") = ApiResp.unauthorized := by
  have h := C8_endpoint_auth_indistinguishable.2.2.2.2.2.1 []
      [⟨"u1", true, false, false, false, false, false, "secret"⟩] (some "wrong") "u1"
      (Except.ok "r") (Except.ok ()) rfl (by
        intro u hu
        have heq : some (⟨"u1", true, false, false, false, false, false, "secret"⟩ :
            UserRow) = some u := hu
        injection heq with heq
        rw [← heq]
        exact Or.inl (by decide))
  exact ⟨rfl, h.1, rfl⟩

/-! ## AddFile assembly: supporting definitions and lemmas -/

/-- The bytes `AddFile` assembles: the concatenation of the cached contents
of the listed chunk ids, in caller order. -/
def chunkContents (cache : ChunkCache) (chunks : List String) : Bytes :=
  (chunks.map (fun c => (cacheLookup cache c).getD [])).flatten

/-- The cache after all listed chunk ids have been consumed. -/
def cacheRemoveAll (cache : ChunkCache) (chunks : List String) : ChunkCache :=
  cache.filter (fun e => !(chunks.contains e.1))

theorem chunkContents_cons (cache : ChunkCache) (c : String) (rest : List String) :
    chunkContents cache (c :: rest) =
      (cacheLookup cache c).getD [] ++ chunkContents cache rest := rfl

theorem cacheRemoveAll_nil (cache : ChunkCache) : cacheRemoveAll cache [] = cache := by
  unfold cacheRemoveAll
  induction cache with
  | nil => rfl
  | cons e rest ih =>
      have hc : (([] : List String).contains e.1) = false := rfl
      simp [List.filter_cons, hc, ih]

theorem chunkContents_filter_ne (cache : ChunkCache) (c : String)
    (rest : List String) (h : ∀ d ∈ rest, d ≠ c) :
    chunkContents (cache.filter (fun e => e.1 != c)) rest = chunkContents cache rest := by
  unfold chunkContents
  congr 1
  apply List.map_congr_left
  intro d hd
  rw [cacheLookup_filter_ne cache c d (h d hd)]

theorem contains_cons_eq (c : String) (rest : List String) (x : String) :
    ((c :: rest).contains x) = (x == c || rest.contains x) := by
  show (List.elem x (c :: rest)) = (x == c || List.elem x rest)
  rw [List.elem_cons]
  cases hx : x == c <;> simp [hx]

theorem cacheRemoveAll_cons (cache : ChunkCache) (c : String) (rest : List String) :
    cacheRemoveAll (cache.filter (fun e => e.1 != c)) rest =
      cacheRemoveAll cache (c :: rest) := by
  unfold cacheRemoveAll
  rw [List.filter_filter]
  apply List.filter_congr
  intro e _
  rw [contains_cons_eq c rest e.1]
  cases h1 : e.1 == c <;> cases h2 : rest.contains e.1 <;> simp [bne, h1, h2]

/-- Full characterisation of the assembly loop when the listed chunk ids
are distinct and all live in the cache: it succeeds, returns the
concatenated contents, removes exactly the listed ids from the cache, and
leaves the temp file holding the assembled bytes. -/
theorem assembleChunks_spec (tmp : String) :
    ∀ (chunks : List String) (cache : ChunkCache) (fs0 : CdnFs) (acc : Bytes)
      (evs : List FsEvent),
      chunks.Nodup →
      (∀ c ∈ chunks, cacheContains cache c = true) →
      assembleChunks tmp chunks ⟨cache, fs0.setFile tmp acc⟩ acc evs =
        (.ok (acc ++ chunkContents cache chunks),
         ⟨cacheRemoveAll cache chunks,
          fs0.setFile tmp (acc ++ chunkContents cache chunks)⟩,
         evs ++ chunks.map (fun _ => FsEvent.writeFile tmp)) := by
  intro chunks
  induction chunks with
  | nil =>
      intro cache fs0 acc evs _ _
      simp only [assembleChunks, chunkContents, List.map_nil, List.flatten_nil,
        List.append_nil, cacheRemoveAll_nil]
  | cons c rest ih =>
      intro cache fs0 acc evs hnd hall
      have hc : cacheContains cache c = true := hall c (List.mem_cons_self c rest)
      obtain ⟨b, hb⟩ : ∃ b, cacheLookup cache c = some b := by
        unfold cacheContains at hc
        exact Option.isSome_iff_exists.1 hc
      have hnd' : rest.Nodup := (List.nodup_cons.1 hnd).2
      have hcnotin : c ∉ rest := (List.nodup_cons.1 hnd).1
      have hall' : ∀ d ∈ rest,
          cacheContains (cache.filter (fun e => e.1 != c)) d = true := by
        intro d hd
        have hdc : d ≠ c := fun h => hcnotin (h ▸ hd)
        unfold cacheContains
        rw [cacheLookup_filter_ne cache c d hdc]
        exact hall d (List.mem_cons_of_mem c hd)
      simp only [assembleChunks, cacheRemove, hb]
      rw [CdnFs.setFile_setFile]
      rw [ih (cache.filter (fun e => e.1 != c)) fs0 (acc ++ b)
        (evs ++ [FsEvent.writeFile tmp]) hnd' hall']
      rw [chunkContents_filter_ne cache c rest (fun d hd h => hcnotin (h ▸ hd))]
      rw [cacheRemoveAll_cons]
      rw [chunkContents_cons, hb]
      simp [List.append_assoc]

/-- Outcome of `runAddFile` once the pre-checks pass: there is a base
filesystem `fs1` agreeing with the initial one on every file lookup such
that the result is the digest-mismatch failure (temp file left, chunks
consumed) or the publication (destination written, temp removed), decided
exactly by the digest comparison. -/
theorem runAddFile_outcome (st : CdnState) (assetPath finalPath tmpToken : String)
    (overwrite : Bool) (chunks : List String) (sha512 : String)
    (hne : chunks ≠ [])
    (hlen : chunks.length ≤ 100000)
    (hnd : chunks.Nodup)
    (hall : ∀ c ∈ chunks, cacheContains st.cache c = true)
    (hdest : st.fs.metadata finalPath = none ∨
      (overwrite = true ∧ st.fs.metadata finalPath = some FsMeta.file))
    (hparent : st.fs.metadata assetPath = none ∨
      st.fs.metadata assetPath = some FsMeta.dir) :
    ∃ fs1 : CdnFs,
      (∀ q, fs1.lookupFile q = st.fs.lookupFile q) ∧
      ((sha512 ≠ sha512hex (chunkContents st.cache chunks) →
        (runAddFile st assetPath finalPath tmpToken overwrite chunks sha512).resp =
          Resp.badRequest "SHA512 hash does not match" ∧
        (runAddFile st assetPath finalPath tmpToken overwrite chunks sha512).st =
          ⟨cacheRemoveAll st.cache chunks,
           fs1.setFile (tmpFilePath tmpToken finalPath)
             (chunkContents st.cache chunks)⟩) ∧
      (sha512 = sha512hex (chunkContents st.cache chunks) →
        (runAddFile st assetPath finalPath tmpToken overwrite chunks sha512).resp =
          Resp.noContent ∧
        (runAddFile st assetPath finalPath tmpToken overwrite chunks sha512).st =
          ⟨cacheRemoveAll st.cache chunks,
           ((fs1.setFile (tmpFilePath tmpToken finalPath)
              (chunkContents st.cache chunks)).setFile finalPath
                (chunkContents st.cache chunks)).removeFile
              (tmpFilePath tmpToken finalPath)⟩)) := by
  have hempty : chunks.isEmpty = false := by
    cases chunks with
    | nil => exact absurd rfl hne
    | cons a l => rfl
  have hgt : ¬(chunks.length > 100000) := Nat.not_lt.2 hlen
  have hany : (chunks.any (fun c => !(cacheContains st.cache c))) = false := by
    apply List.any_eq_false.2
    intro c hc
    simp [hall c hc]
  have hassem : ∀ fs1 : CdnFs, ∀ evs : List FsEvent,
      runAddFileAssemble ⟨st.cache, fs1⟩ finalPath tmpToken chunks sha512 evs =
        (if sha512 != sha512hex (chunkContents st.cache chunks) then
          ⟨Resp.badRequest "SHA512 hash does not match",
           ⟨cacheRemoveAll st.cache chunks,
            fs1.setFile (tmpFilePath tmpToken finalPath)
              (chunkContents st.cache chunks)⟩,
           (evs ++ [FsEvent.createFile (tmpFilePath tmpToken finalPath)]
             ++ chunks.map (fun _ =>
                  FsEvent.writeFile (tmpFilePath tmpToken finalPath)))
             ++ [FsEvent.readFile (tmpFilePath tmpToken finalPath)]⟩
        else
          ⟨Resp.noContent,
           ⟨cacheRemoveAll st.cache chunks,
            ((fs1.setFile (tmpFilePath tmpToken finalPath)
               (chunkContents st.cache chunks)).setFile finalPath
                 (chunkContents st.cache chunks)).removeFile
               (tmpFilePath tmpToken finalPath)⟩,
           ((evs ++ [FsEvent.createFile (tmpFilePath tmpToken finalPath)]
             ++ chunks.map (fun _ =>
                  FsEvent.writeFile (tmpFilePath tmpToken finalPath)))
             ++ [FsEvent.readFile (tmpFilePath tmpToken finalPath)])
             ++ [FsEvent.copy (tmpFilePath tmpToken finalPath) finalPath,
                 FsEvent.removeFile (tmpFilePath tmpToken finalPath)]⟩) := by
    intro fs1 evs
    have hspec := assembleChunks_spec (tmpFilePath tmpToken finalPath) chunks
      st.cache fs1 [] (evs ++ [FsEvent.createFile (tmpFilePath tmpToken finalPath)])
      hnd hall
    rw [List.nil_append] at hspec
    simp only [runAddFileAssemble, hspec]
  rcases hdest with hdest | ⟨hov, hdest⟩
  all_goals (
    rcases hparent with hparent | hparent
    all_goals (
      first
        | (refine ⟨st.fs.addDir assetPath, fun q => rfl, ?_⟩
           have hred : runAddFile st assetPath finalPath tmpToken overwrite chunks
               sha512 =
               runAddFileAssemble ⟨st.cache, (st.fs.addDir assetPath)⟩ finalPath
                 tmpToken chunks sha512
                 [FsEvent.stat finalPath, FsEvent.stat assetPath,
                  FsEvent.createDir assetPath] := by
             simp only [runAddFile, hempty, Bool.false_eq_true, if_false,
               if_neg hgt, hany, hdest, hparent, runAddFileParent]
             first
               | rfl
               | (simp only [hov, if_true]
                  rfl)
           rw [hred, hassem]
           constructor
           · intro hneq
             rw [if_pos (bne_iff_ne.2 hneq)]
             exact ⟨rfl, rfl⟩
           · intro heq
             rw [if_neg (by simp [bne, heq])]
             exact ⟨rfl, rfl⟩)
        | (refine ⟨st.fs, fun q => rfl, ?_⟩
           have hred : runAddFile st assetPath finalPath tmpToken overwrite chunks
               sha512 =
               runAddFileAssemble ⟨st.cache, st.fs⟩ finalPath tmpToken chunks sha512
                 [FsEvent.stat finalPath, FsEvent.stat assetPath] := by
             simp only [runAddFile, hempty, Bool.false_eq_true, if_false,
               if_neg hgt, hany, hdest, hparent, runAddFileParent]
             first
               | rfl
               | (simp only [hov, if_true]
                  rfl)
           rw [hred, hassem]
           constructor
           · intro hneq
             rw [if_pos (bne_iff_ne.2 hneq)]
             exact ⟨rfl, rfl⟩
           · intro heq
             rw [if_neg (by simp [bne, heq])]
             exact ⟨rfl, rfl⟩)))

theorem contains_eq_true_of_mem (l : List String) (a : String) (h : a ∈ l) :
    l.contains a = true := by
  induction l with
  | nil => cases h
  | cons x xs ih =>
      rw [contains_cons_eq]
      rcases List.mem_cons.1 h with h | h
      · simp [h]
      · simp [ih h, h]

theorem cacheLookup_removeAll_mem (cache : ChunkCache) (chunks : List String)
    (c : String) (hc : c ∈ chunks) :
    cacheLookup (cacheRemoveAll cache chunks) c = none := by
  unfold cacheLookup cacheRemoveAll
  have hnone : (cache.filter (fun e => !(chunks.contains e.1))).find?
      (fun e => e.1 == c) = none := by
    apply List.find?_eq_none.2
    intro e he hbeq
    have h1 := (List.mem_filter.1 he).2
    have h2 : e.1 = c := by simpa using hbeq
    rw [h2, contains_eq_true_of_mem chunks c hc] at h1
    simp at h1
  rw [hnone]
  rfl

/-- The chunk pre-check of `AddFile`: with a nonempty, size-bounded chunk
list of which some id is not cached, the request fails before any
filesystem access and the state is unchanged. -/
theorem runAddFile_missing_chunk (st : CdnState)
    (assetPath finalPath tmpToken : String) (overwrite : Bool)
    (chunks : List String) (sha512 : String)
    (hne : chunks ≠ [])
    (hlen : chunks.length ≤ 100000)
    (hmiss : ∃ c ∈ chunks, cacheContains st.cache c = false) :
    (runAddFile st assetPath finalPath tmpToken overwrite chunks sha512).resp =
      Resp.badRequest "Chunk does not exist" ∧
    (runAddFile st assetPath finalPath tmpToken overwrite chunks sha512).st = st ∧
    (runAddFile st assetPath finalPath tmpToken overwrite chunks sha512).events = [] := by
  have hempty : chunks.isEmpty = false := by
    cases chunks with
    | nil => exact absurd rfl hne
    | cons a l => rfl
  have hgt : ¬(chunks.length > 100000) := Nat.not_lt.2 hlen
  have hany : (chunks.any (fun c => !(cacheContains st.cache c))) = true := by
    rcases hmiss with ⟨c, hc, hcc⟩
    exact List.any_eq_true.2 ⟨c, hc, by simp [hcc]⟩
  simp only [runAddFile, hempty, Bool.false_eq_true, if_false, if_neg hgt, hany,
    eq_self_iff_true, if_true]
  refine ⟨?_, ?_, ?_⟩ <;> trivial

/-- The chunk cache and filesystem used by the C2 counterexample: chunk
"c1" is cached and the destination file already exists. -/
def c2st : CdnState := ⟨[("c1", [97])], ⟨[("/cdn/p/a.txt", [1])], ["/cdn/p"]⟩⟩

/-- C2 counterexample: all listed chunk ids are present and the supplied
digest equals the SHA-512 digest of the assembled content, yet the file is
not published — the destination already exists and `overwrite` is false, so
the handler answers "Asset already exists" and leaves the state unchanged
(the destination keeps its old content, not the assembled one). -/
theorem C2_counterexample :
    cacheContains c2st.cache "c1" = true ∧
    sha512hex (chunkContents c2st.cache ["c1"]) = sha512hex [97] ∧
    (updateCdnAsset true [("ibl@main", "/cdn")] "ibl@main" "a.txt" "p"
        (CdnAssetAction.addFile false ["c1"] (sha512hex [97])) "T" c2st).resp =
      Resp.badRequest "Asset already exists" ∧
    (updateCdnAsset true [("ibl@main", "/cdn")] "ibl@main" "a.txt" "p"
        (CdnAssetAction.addFile false ["c1"] (sha512hex [97])) "T" c2st).st = c2st ∧
    c2st.fs.lookupFile "/cdn/p/a.txt" = some [1] := by
  refine ⟨by decide, ?_, rfl, rfl, rfl⟩
  have h : chunkContents c2st.cache ["c1"] = [97] := by decide
  rw [h]

/-- C2 (amended): for every AddFile action that passes the preliminary
checks — nonempty chunk list of at most 100000 ids, all listed chunk ids
distinct and present in the cache, destination either absent or an existing
non-directory with overwrite set, parent path absent or a directory — the
assembled file is published at the resolved destination path if and only if
the SHA-512 digest of the assembled content equals the caller-supplied hex
digest; when the digests differ, the operation returns the integrity error
and the destination path is left untouched. -/
theorem C2_addfile_publishes_iff_digest_matches
    (scopes : List (String × String)) (cdnScope name path root : String)
    (assetPath finalPath tmpToken sha512 : String) (overwrite : Bool)
    (chunks : List String) (st : CdnState)
    (hscope : scopeLookup scopes cdnScope = some root)
    (hvn : validate_name name = .ok ())
    (hvp : validate_path path = .ok ())
    (hA : assetPath = if strIsEmpty path then root else root ++ "/" ++ path)
    (hF : finalPath = if strIsEmpty name then assetPath else assetPath ++ "/" ++ name)
    (hne : chunks ≠ [])
    (hlen : chunks.length ≤ 100000)
    (hnd : chunks.Nodup)
    (hall : ∀ c ∈ chunks, cacheContains st.cache c = true)
    (hdest : st.fs.metadata finalPath = none ∨
      (overwrite = true ∧ st.fs.metadata finalPath = some FsMeta.file))
    (hparent : st.fs.metadata assetPath = none ∨
      st.fs.metadata assetPath = some FsMeta.dir)
    (htmp : tmpFilePath tmpToken finalPath ≠ finalPath) :
    (((updateCdnAsset true scopes cdnScope name path
          (CdnAssetAction.addFile overwrite chunks sha512) tmpToken st).resp =
        Resp.noContent ∧
      (updateCdnAsset true scopes cdnScope name path
          (CdnAssetAction.addFile overwrite chunks sha512) tmpToken
          st).st.fs.lookupFile finalPath =
        some (chunkContents st.cache chunks)) ↔
      sha512 = sha512hex (chunkContents st.cache chunks)) ∧
    (sha512 ≠ sha512hex (chunkContents st.cache chunks) →
      (updateCdnAsset true scopes cdnScope name path
          (CdnAssetAction.addFile overwrite chunks sha512) tmpToken st).resp =
        Resp.badRequest "SHA512 hash does not match" ∧
      (updateCdnAsset true scopes cdnScope name path
          (CdnAssetAction.addFile overwrite chunks sha512) tmpToken
          st).st.fs.lookupFile finalPath = st.fs.lookupFile finalPath) := by
  have hred : updateCdnAsset true scopes cdnScope name path
      (CdnAssetAction.addFile overwrite chunks sha512) tmpToken st =
      runAddFile st assetPath finalPath tmpToken overwrite chunks sha512 := by
    simp only [updateCdnAsset, hscope, hvn, hvp, Bool.not_true, Bool.false_eq_true,
      if_false]
    rw [← hA, ← hF]
  obtain ⟨fs1, hfs1, hmis, hmatch⟩ := runAddFile_outcome st assetPath finalPath
    tmpToken overwrite chunks sha512 hne hlen hnd hall hdest hparent
  rw [hred]
  have hfne : finalPath ≠ tmpFilePath tmpToken finalPath := fun h => htmp h.symm
  constructor
  · constructor
    · rintro ⟨hresp, _⟩
      by_contra hneq
      have hbad := (hmis hneq).1
      rw [hbad] at hresp
      simp at hresp
    · intro heq
      obtain ⟨hresp, hst⟩ := hmatch heq
      refine ⟨hresp, ?_⟩
      rw [hst]
      show (((fs1.setFile (tmpFilePath tmpToken finalPath)
        (chunkContents st.cache chunks)).setFile finalPath
          (chunkContents st.cache chunks)).removeFile
            (tmpFilePath tmpToken finalPath)).lookupFile finalPath = _
      rw [CdnFs.lookupFile_removeFile_ne _ _ _ hfne]
      rw [CdnFs.lookupFile_setFile_self]
  · intro hneq
    obtain ⟨hresp, hst⟩ := hmis hneq
    refine ⟨hresp, ?_⟩
    rw [hst]
    show ((fs1.setFile (tmpFilePath tmpToken finalPath)
      (chunkContents st.cache chunks)).lookupFile finalPath) = _
    rw [CdnFs.lookupFile_setFile_ne _ _ _ _ hfne]
    exact hfs1 finalPath

/-- The chunk cache and filesystem used by the C2/C10 witnesses: chunk
"c1" is cached and the destination is absent. -/
def c2wst : CdnState := ⟨[("c1", [97])], ⟨[], ["/cdn/p"]⟩⟩

/-- C2 witness: a concrete AddFile whose pre-checks pass — publication is
equivalent to the supplied digest matching, and a mismatching digest leaves
the (absent) destination untouched. -/
theorem C2_witness :
    (["c1"] ≠ ([] : List String)) ∧
    ((((updateCdnAsset true [("ibl@main", "/cdn")] "ibl@main" "a.txt" "p"
          (CdnAssetAction.addFile false ["c1"] (sha512hex [97])) "T" c2wst).resp =
        Resp.noContent ∧
      (updateCdnAsset true [("ibl@main", "/cdn")] "ibl@main" "a.txt" "p"
          (CdnAssetAction.addFile false ["c1"] (sha512hex [97])) "T"
          c2wst).st.fs.lookupFile "/cdn/p/a.txt" =
        some (chunkContents c2wst.cache ["c1"])) ↔
      sha512hex [97] = sha512hex (chunkContents c2wst.cache ["c1"])) ∧
    (sha512hex [97] ≠ sha512hex (chunkContents c2wst.cache ["c1"]) →
      (updateCdnAsset true [("ibl@main", "/cdn")] "ibl@main" "a.txt" "p"
          (CdnAssetAction.addFile false ["c1"] (sha512hex [97])) "T" c2wst).resp =
        Resp.badRequest "SHA512 hash does not match" ∧
      (updateCdnAsset true [("ibl@main", "/cdn")] "ibl@main" "a.txt" "p"
          (CdnAssetAction.addFile false ["c1"] (sha512hex [97])) "T"
          c2wst).st.fs.lookupFile "/cdn/p/a.txt" =
        c2wst.fs.lookupFile "/cdn/p/a.txt")) := by
  refine ⟨by decide, ?_⟩
  exact C2_addfile_publishes_iff_digest_matches [("ibl@main", "/cdn")] "ibl@main"
    "a.txt" "p" "/cdn" "/cdn/p" "/cdn/p/a.txt" "T" (sha512hex [97]) false ["c1"]
    c2wst rfl (by rfl) (by rfl) rfl rfl (by decide) (by decide) (by decide)
    (by decide) (Or.inl rfl) (Or.inr rfl) (by decide)

/-- C10: when AddFile (with passing pre-checks) fails on a SHA-512 digest
mismatch, its side effects are not rolled back except at the destination:
the response is the mismatch error, every listed chunk has already been
removed from the chunk cache, the uniquely named temporary file remains on
disk holding the assembled bytes, the destination path is untouched, and
retrying the same chunk-id list on the resulting state fails with the
missing-chunk error. -/
theorem C10_mismatch_consumes_chunks_keeps_temp (st : CdnState)
    (assetPath finalPath tmpToken : String) (overwrite : Bool)
    (chunks : List String) (sha512 : String)
    (hne : chunks ≠ [])
    (hlen : chunks.length ≤ 100000)
    (hnd : chunks.Nodup)
    (hall : ∀ c ∈ chunks, cacheContains st.cache c = true)
    (hdest : st.fs.metadata finalPath = none ∨
      (overwrite = true ∧ st.fs.metadata finalPath = some FsMeta.file))
    (hparent : st.fs.metadata assetPath = none ∨
      st.fs.metadata assetPath = some FsMeta.dir)
    (htmp : tmpFilePath tmpToken finalPath ≠ finalPath)
    (hmm : sha512 ≠ sha512hex (chunkContents st.cache chunks)) :
    (runAddFile st assetPath finalPath tmpToken overwrite chunks sha512).resp =
      Resp.badRequest "SHA512 hash does not match" ∧
    (∀ c ∈ chunks,
      cacheLookup (runAddFile st assetPath finalPath tmpToken overwrite chunks
        sha512).st.cache c = none) ∧
    (runAddFile st assetPath finalPath tmpToken overwrite chunks
        sha512).st.fs.lookupFile (tmpFilePath tmpToken finalPath) =
      some (chunkContents st.cache chunks) ∧
    (runAddFile st assetPath finalPath tmpToken overwrite chunks
        sha512).st.fs.lookupFile finalPath = st.fs.lookupFile finalPath ∧
    (runAddFile (runAddFile st assetPath finalPath tmpToken overwrite chunks
        sha512).st assetPath finalPath tmpToken overwrite chunks sha512).resp =
      Resp.badRequest "Chunk does not exist" := by
  obtain ⟨fs1, hfs1, hmis, _⟩ := runAddFile_outcome st assetPath finalPath
    tmpToken overwrite chunks sha512 hne hlen hnd hall hdest hparent
  obtain ⟨hresp, hst⟩ := hmis hmm
  have hfne : finalPath ≠ tmpFilePath tmpToken finalPath := fun h => htmp h.symm
  refine ⟨hresp, ?_, ?_, ?_, ?_⟩
  · intro c hc
    rw [hst]
    exact cacheLookup_removeAll_mem st.cache chunks c hc
  · rw [hst]
    exact CdnFs.lookupFile_setFile_self _ _ _
  · rw [hst]
    show ((fs1.setFile (tmpFilePath tmpToken finalPath)
      (chunkContents st.cache chunks)).lookupFile finalPath) = _
    rw [CdnFs.lookupFile_setFile_ne _ _ _ _ hfne]
    exact hfs1 finalPath
  · rw [hst]
    obtain ⟨c0, hc0⟩ := List.exists_mem_of_ne_nil chunks hne
    refine (runAddFile_missing_chunk _ assetPath finalPath tmpToken overwrite
      chunks sha512 hne hlen ⟨c0, hc0, ?_⟩).1
    unfold cacheContains
    rw [cacheLookup_removeAll_mem st.cache chunks c0 hc0]
    rfl

/-- C10 witness: a concrete mismatching AddFile — response is the integrity
error, the chunk is consumed, the temp file holds the assembled bytes, the
destination is untouched, and the retry fails with the missing-chunk
error. -/
theorem C10_witness :
    ("deadbeef" ≠ sha512hex (chunkContents c2wst.cache ["c1"])) ∧
    ((runAddFile c2wst "/cdn/p" "/cdn/p/a.txt" "T" false ["c1"] "deadbeef").resp =
      Resp.badRequest "SHA512 hash does not match" ∧
    cacheLookup (runAddFile c2wst "/cdn/p" "/cdn/p/a.txt" "T" false ["c1"]
        "deadbeef").st.cache "c1" = none ∧
    (runAddFile c2wst "/cdn/p" "/cdn/p/a.txt" "T" false ["c1"]
        "deadbeef").st.fs.lookupFile (tmpFilePath "T" "/cdn/p/a.txt") =
      some (chunkContents c2wst.cache ["c1"]) ∧
    (runAddFile c2wst "/cdn/p" "/cdn/p/a.txt" "T" false ["c1"]
        "deadbeef").st.fs.lookupFile "/cdn/p/a.txt" =
      c2wst.fs.lookupFile "/cdn/p/a.txt" ∧
    (runAddFile (runAddFile c2wst "/cdn/p" "/cdn/p/a.txt" "T" false ["c1"]
        "deadbeef").st "/cdn/p" "/cdn/p/a.txt" "T" false ["c1"] "deadbeef").resp =
      Resp.badRequest "Chunk does not exist") := by
  have h := C10_mismatch_consumes_chunks_keeps_temp c2wst "/cdn/p" "/cdn/p/a.txt" "T"
    false ["c1"] "deadbeef" (by decide) (by decide) (by decide) (by decide)
    (Or.inl rfl) (Or.inr rfl) (by decide) (by decide)
  exact ⟨by decide, h.1, h.2.1 "c1" (by decide), h.2.2.1, h.2.2.2.1, h.2.2.2.2⟩

end Sovngarde
